import Mathlib

/-!
# HRMS front end: route guard, leave request form, HR dashboard, auth controller

A shallow embedding of the parts of the React application that carry its
logic.  Component state (the `useState` cells) becomes a structure, a handler
becomes a function from the state before it runs to the state after it has
run, and every remote call is an explicit argument: the backend tables are a
value of type `Database`, and the outcome of a call that can fail is passed in
(`none`: the call succeeded, `some err`: it returned or threw `err`).

JavaScript values are modelled only as far as the code inspects them:
* `JsVal` for a role (`undefined`, `null` or a string);
* `JsNum` for a number (`nan` or an exact rational; day counts and balances
  are exactly representable in the source's doubles);
* `newDate` for `new Date(s)` on the date-only forms an `<input type="date">`
  and a `date` column hold: `YYYY-MM-DD`, and the same with a year of five or
  six digits;
* `JsEngine` for the engine's `toUpperCase`, which the repository does not
  contain: definitions that upper-case take the engine as a parameter.

Handlers are taken one at a time: a handler runs from its first statement to
its return against the tables as they are then.  Where the source starts
another handler without awaiting it (`fetchDashboardData()` at the end of
`handleLeaveApproval`), the two are separate functions here and the state
between them is a state the user can act on.
-/

namespace Hrms

/-! ## JavaScript values -/

/-- A JavaScript value as far as role checks look at it. -/
inductive JsVal where
  | undefined
  | null
  | str (s : String)
  deriving DecidableEq, Repr

/-- An error object: what `throw` carries and what a remote call returns in
its `error` field.  `message` and `code` may be missing. -/
structure JsError where
  message : Option String
  code : Option String
  deriving DecidableEq, Repr

/-- The expression `err.message || fallback`: the message when it is a
non-empty string, the fallback when it is missing or empty (both falsy). -/
def messageOr (err : JsError) (fallback : String) : String :=
  match err.message with
  | some m => if m = "" then fallback else m
  | none => fallback

/-- `Array.prototype.includes`: some element equals `v` (SameValueZero, which
on `undefined`, `null` and strings is plain equality). -/
def includes (xs : List JsVal) (v : JsVal) : Bool :=
  xs.any (fun x => decide (x = v))

/-! ## Route guard (`App.js`, `App.jsx`: `PrivateRoute`) -/

/-- The identity cached in a session. -/
structure User where
  id : String
  email : String
  deriving DecidableEq, Repr

/-- The session object `{ user, role }` held by the auth context. -/
structure Session where
  user : User
  role : JsVal
  deriving DecidableEq, Repr

/-- What a route element renders to. -/
inductive Element where
  | loadingPlaceholder
  | navigate (target : String)
  | children
  deriving DecidableEq, Repr

/-- `PrivateRoute`.  `session = none` is the `null` session; `allowedRoles =
none` is the prop left out (an array, even an empty one, is truthy). -/
def PrivateRoute (loading : Bool) (session : Option Session)
    (allowedRoles : Option (List JsVal)) : Element :=
  if loading then
    Element.loadingPlaceholder
  else
    match session with
    | none => Element.navigate "/"
    | some s =>
      match allowedRoles with
      | some roles =>
        if !(includes roles s.role) then Element.navigate "/unauthorized"
        else Element.children
      | none => Element.children

/-! ## Dates (`new Date(s)` on a date-only string) -/

/-- A JavaScript number: `NaN` or an exact value. -/
inductive JsNum where
  | nan
  | num (q : ℚ)
  deriving DecidableEq

/-- Addition of numbers; `NaN` absorbs. -/
def JsNum.add : JsNum → JsNum → JsNum
  | JsNum.num a, JsNum.num b => JsNum.num (a + b)
  | _, _ => JsNum.nan

/-- Subtraction of numbers; `NaN` absorbs. -/
def JsNum.sub : JsNum → JsNum → JsNum
  | JsNum.num a, JsNum.num b => JsNum.num (a - b)
  | _, _ => JsNum.nan

/-- Division of numbers by a non-zero constant; `NaN` absorbs. -/
def JsNum.divConst : JsNum → ℚ → JsNum
  | JsNum.num a, k => JsNum.num (a / k)
  | JsNum.nan, _ => JsNum.nan

/-- A calendar date: year, month (1 to 12), day of month (from 1). -/
structure CivilDate where
  year : Nat
  month : Nat
  day : Nat
  deriving DecidableEq, Repr

/-- Gregorian leap years. -/
def isLeapYear (y : Nat) : Bool :=
  (y % 4 == 0 && y % 100 != 0) || y % 400 == 0

/-- Length of month `m` of year `y`; 0 when `m` is not a month. -/
def daysInMonth (y m : Nat) : Nat :=
  match m with
  | 1 => 31
  | 2 => if isLeapYear y then 29 else 28
  | 3 => 31
  | 4 => 30
  | 5 => 31
  | 6 => 30
  | 7 => 31
  | 8 => 31
  | 9 => 30
  | 10 => 31
  | 11 => 30
  | 12 => 31
  | _ => 0

/-- A date that exists in the calendar. -/
def CivilDate.valid (c : CivilDate) : Prop :=
  1 ≤ c.month ∧ c.month ≤ 12 ∧ 1 ≤ c.day ∧ c.day ≤ daysInMonth c.year c.month

instance (c : CivilDate) : Decidable c.valid := by
  unfold CivilDate.valid; infer_instance

/-- ECMAScript `DayFromYear`: the day number, counted from 1970-01-01, of the
first day of year `y`. -/
def dayFromYear (y : Nat) : Int :=
  365 * ((y : Int) - 1970) + ((y : Int) - 1969) / 4 - ((y : Int) - 1901) / 100
    + ((y : Int) - 1601) / 400

/-- Days of year `y` that precede its month `m`. -/
def daysBeforeMonth (y m : Nat) : Nat :=
  ((List.range (m - 1)).map (fun i => daysInMonth y (i + 1))).sum

/-- ECMAScript `MakeDay`: the day number of a date, counted from 1970-01-01. -/
def epochDay (c : CivilDate) : Int :=
  dayFromYear c.year + (daysBeforeMonth c.year c.month : Int) + ((c.day : Int) - 1)

/-- Milliseconds per day, `1000 * 60 * 60 * 24`. -/
def msPerDay : Int := 1000 * 60 * 60 * 24

/-- Value of a decimal digit character. -/
def digitVal (c : Char) : Option Nat :=
  if c.isDigit then some (c.toNat - 48) else none

/-- The test the engine (V8) applies to the month and the day of a date-only
string: a month from 1 to 12 and a day from 1 to 31.  A day past the end of
its month is let through, and `epochDay` runs it over into the next month. -/
def dayInRange (c : CivilDate) : Prop :=
  1 ≤ c.month ∧ c.month ≤ 12 ∧ 1 ≤ c.day ∧ c.day ≤ 31

instance (c : CivilDate) : Decidable (dayInRange c) := by
  unfold dayInRange; infer_instance

/-- The date-only form `YYYY-MM-DD` read as year, month and day; `none` for any
other string and for a month or day out of range. -/
def parseDateOnly (s : String) : Option CivilDate :=
  match s.data with
  | [y1, y2, y3, y4, s1, m1, m2, s2, d1, d2] =>
    if s1 = '-' ∧ s2 = '-' then
      match digitVal y1, digitVal y2, digitVal y3, digitVal y4,
            digitVal m1, digitVal m2, digitVal d1, digitVal d2 with
      | some a, some b, some c, some d, some e, some f, some g, some h =>
        let date : CivilDate :=
          { year := 1000 * a + 100 * b + 10 * c + d, month := 10 * e + f, day := 10 * g + h }
        if dayInRange date then some date else none
      | _, _, _, _, _, _, _, _ => none
    else none
  | _ => none

/-- The forms `YYYYY-MM-DD` and `YYYYYY-MM-DD`, which a date input yields for
a year past 9999, read as year, month and day; `none` for any other string and
for a month or day out of range. -/
def parseLongYear (s : String) : Option CivilDate :=
  match s.data with
  | [y1, y2, y3, y4, y5, s1, m1, m2, s2, d1, d2] =>
    if s1 = '-' ∧ s2 = '-' then
      match digitVal y1, digitVal y2, digitVal y3, digitVal y4, digitVal y5,
            digitVal m1, digitVal m2, digitVal d1, digitVal d2 with
      | some a, some b, some c, some d, some k, some e, some f, some g, some h =>
        let date : CivilDate :=
          { year := 10000 * a + 1000 * b + 100 * c + 10 * d + k,
            month := 10 * e + f, day := 10 * g + h }
        if dayInRange date then some date else none
      | _, _, _, _, _, _, _, _, _ => none
    else none
  | [y1, y2, y3, y4, y5, y6, s1, m1, m2, s2, d1, d2] =>
    if s1 = '-' ∧ s2 = '-' then
      match digitVal y1, digitVal y2, digitVal y3, digitVal y4, digitVal y5, digitVal y6,
            digitVal m1, digitVal m2, digitVal d1, digitVal d2 with
      | some a, some b, some c, some d, some k, some l, some e, some f, some g, some h =>
        let date : CivilDate :=
          { year := 100000 * a + 10000 * b + 1000 * c + 100 * d + 10 * k + l,
            month := 10 * e + f, day := 10 * g + h }
        if dayInRange date then some date else none
      | _, _, _, _, _, _, _, _, _, _ => none
    else none
  | _ => none

/-- The last day a `Date` can hold, 275760-09-13, as a day number: a time
value is at most 8.64e15 milliseconds in size. -/
def maxEpochDay : Int := 100000000

/-- `new Date(s)` for a date-only string: the time value, in milliseconds
since the epoch, of midnight on that date.  `none` is the Invalid Date (time
value `NaN`).  A four-digit year is the ECMAScript date form, read at UTC; a
year of five or six digits is read by the engine's fallback parser (V8), at
local midnight, which is taken here in the zone UTC, and gives the Invalid Date
past the last day a `Date` can hold.  Strings of another form, which neither a
date input nor a `date` column holds, are read as Invalid Date here. -/
def newDate (s : String) : Option Int :=
  match parseDateOnly s with
  | some c => some (epochDay c * msPerDay)
  | none =>
    match parseLongYear s with
    | some c => if epochDay c ≤ maxEpochDay then some (epochDay c * msPerDay) else none
    | none => none

/-- The comparison `new Date(a) > new Date(b)`; false when either side is the
Invalid Date. -/
def dateGt (a b : Option Int) : Bool :=
  match a, b with
  | some x, some y => decide (y < x)
  | _, _ => false

/-- The difference `new Date(a) - new Date(b)`; `NaN` when either side is the
Invalid Date. -/
def dateSub (a b : Option Int) : JsNum :=
  match a, b with
  | some x, some y => JsNum.num ((x - y : Int) : ℚ)
  | _, _ => JsNum.nan

/-- Decimal digit character of `n < 10`. -/
def digitChar (n : Nat) : Char := Char.ofNat (48 + n)

/-- The date-only string `YYYY-MM-DD` of a date with a four-digit year. -/
def isoDate (c : CivilDate) : String :=
  String.mk
    [digitChar (c.year / 1000), digitChar (c.year / 100 % 10), digitChar (c.year / 10 % 10),
     digitChar (c.year % 10), '-', digitChar (c.month / 10), digitChar (c.month % 10), '-',
     digitChar (c.day / 10), digitChar (c.day % 10)]

/-- The value of a date input for a date: `YYYY-MM-DD`, the year written with
as many digits as it has and at least four. -/
def dateString (c : CivilDate) : String :=
  if c.year ≤ 9999 then isoDate c
  else if c.year ≤ 99999 then
    String.mk
      [digitChar (c.year / 10000), digitChar (c.year / 1000 % 10), digitChar (c.year / 100 % 10),
       digitChar (c.year / 10 % 10), digitChar (c.year % 10), '-',
       digitChar (c.month / 10), digitChar (c.month % 10), '-',
       digitChar (c.day / 10), digitChar (c.day % 10)]
  else
    String.mk
      [digitChar (c.year / 100000), digitChar (c.year / 10000 % 10),
       digitChar (c.year / 1000 % 10), digitChar (c.year / 100 % 10),
       digitChar (c.year / 10 % 10), digitChar (c.year % 10), '-',
       digitChar (c.month / 10), digitChar (c.month % 10), '-',
       digitChar (c.day / 10), digitChar (c.day % 10)]

/-- The day after `c` in the calendar. -/
def nextDay (c : CivilDate) : CivilDate :=
  if c.day < daysInMonth c.year c.month then { c with day := c.day + 1 }
  else if c.month < 12 then { c with month := c.month + 1, day := 1 }
  else { year := c.year + 1, month := 1, day := 1 }

/-- The date `n` days after `c`, by stepping through the calendar. -/
def addDays (n : Nat) (c : CivilDate) : CivilDate :=
  match n with
  | 0 => c
  | k + 1 => nextDay (addDays k c)

/-- Calendar order: `a` falls strictly before `b`. -/
def CivilDate.before (a b : CivilDate) : Prop :=
  a.year < b.year ∨ (a.year = b.year ∧ (a.month < b.month ∨ (a.month = b.month ∧ a.day < b.day)))

instance (a b : CivilDate) : Decidable (a.before b) := by
  unfold CivilDate.before; infer_instance

/-! ## Leave request form (`LeaveRequestForm.jsx`: `handleSubmit`) -/

/-- The `useState` cells of `LeaveRequestForm`. -/
structure FormState where
  leaveType : String
  startDate : String
  endDate : String
  reason : String
  loading : Bool
  error : String
  successMessage : String
  deriving DecidableEq, Repr

/-- The form as first rendered. -/
def FormState.initial : FormState :=
  { leaveType := "vacation", startDate := "", endDate := "", reason := "",
    loading := false, error := "", successMessage := "" }

/-- The object passed to `insert` on the `leaveRequests` table. -/
structure LeaveRequestInsert where
  employeeId : Nat
  leaveType : String
  startDate : String
  endDate : String
  reason : String
  status : String
  deriving DecidableEq, Repr

/-- One remote insert: the table and the row sent. -/
structure InsertCall where
  table : String
  row : LeaveRequestInsert
  deriving DecidableEq, Repr

/-- What one run of `handleSubmit` leaves behind: the component state, the
remote inserts it issued, in order, and how often it called `onSuccess`. -/
structure SubmitResult where
  state : FormState
  inserts : List InsertCall
  onSuccessCalls : Nat
  deriving DecidableEq, Repr

/-- `handleSubmit`.  `insertError` is the outcome of the remote insert (`none`:
it succeeded; `some err`: it returned `err` in its `error` field, or the await
threw `err`); `onSuccessError` is the outcome of the caller's `onSuccess`
(`some err`: it threw `err`). -/
def handleSubmit (employeeId : Nat) (insertError onSuccessError : Option JsError)
    (st : FormState) : SubmitResult :=
  -- setLoading(true); setError(''); setSuccessMessage('');
  let st1 := { st with loading := true, error := "", successMessage := "" }
  if st.startDate = "" ∨ st.endDate = "" ∨ dateGt (newDate st.startDate) (newDate st.endDate) then
    { state := { st1 with error := "Please select valid start and end dates.", loading := false },
      inserts := [], onSuccessCalls := 0 }
  else
    let call : InsertCall :=
      { table := "leaveRequests",
        row := { employeeId := employeeId, leaveType := st.leaveType, startDate := st.startDate,
                 endDate := st.endDate, reason := st.reason, status := "pending" } }
    match insertError with
    | some err =>
      -- if (error) throw error;  ...  catch, finally
      { state := { st1 with error := messageOr err "Failed to submit leave request.",
                            loading := false },
        inserts := [call], onSuccessCalls := 0 }
    | none =>
      let st2 := { st1 with
        successMessage := "Leave request submitted successfully! [cite: 4]",
        leaveType := "vacation", startDate := "", endDate := "", reason := "" }
      match onSuccessError with
      | none => { state := { st2 with loading := false }, inserts := [call], onSuccessCalls := 1 }
      | some err =>
        { state := { st2 with error := messageOr err "Failed to submit leave request.",
                              loading := false },
          inserts := [call], onSuccessCalls := 1 }

/-! ## HR approval flow (`HrAdminDashboard.jsx`: `handleLeaveApproval`) -/

/-- A row of `leaveRequests`. -/
structure LeaveRequest where
  id : Nat
  employeeId : Nat
  leaveType : String
  startDate : String
  endDate : String
  reason : String
  status : String
  deriving DecidableEq, Repr

/-- A row of `leaveBalances`. -/
structure LeaveBalance where
  id : Nat
  employeeId : Nat
  leaveType : String
  accruedDays : JsNum
  takenDays : JsNum
  remainingDays : JsNum
  deriving DecidableEq

/-- The backend tables the approval flow touches. -/
structure Database where
  leaveRequests : List LeaveRequest
  leaveBalances : List LeaveBalance
  deriving DecidableEq

/-- The `useState` cells of `HrAdminDashboard` that the handler uses.  The
returned JSX reads `leaveApplications` and `loading` (the buttons are disabled
while it is set); the only statement that reads `error` is commented out, so
the cell is set and not rendered. -/
structure DashState where
  leaveApplications : List LeaveRequest
  loading : Bool
  error : String
  deriving DecidableEq, Repr

/-- Outcome of each remote call of `handleLeaveApproval` (`none`: the call does
what it is asked; `some err`: it returns or throws `err` and changes nothing). -/
structure ApprovalFaults where
  statusUpdate : Option JsError
  balanceFetch : Option JsError
  balanceUpdate : Option JsError
  deriving DecidableEq, Repr

/-- No remote call fails. -/
def ApprovalFaults.none : ApprovalFaults :=
  { statusUpdate := Option.none, balanceFetch := Option.none, balanceUpdate := Option.none }

/-- What one run of `handleLeaveApproval` leaves behind: the tables, the
component state, whether `fetchDashboardData()` was called, and whether the
missing-balance warning was logged. -/
structure ApprovalResult where
  db : Database
  state : DashState
  refetch : Bool
  warned : Bool
  deriving DecidableEq

/-- The modifier `.single()` on a select: the row when exactly one matches,
otherwise no data and the error coded `PGRST116`. -/
def single (rows : List LeaveBalance) : Option LeaveBalance × Option JsError :=
  match rows with
  | [r] => (some r, none)
  | _ => (none, some { message := some "JSON object requested, multiple (or no) rows returned",
                       code := some "PGRST116" })

/-- The day count `(new Date(endDate) - new Date(startDate)) / (1000 * 60 * 60 * 24) + 1`. -/
def diffDays (request : LeaveRequest) : JsNum :=
  ((dateSub (newDate request.endDate) (newDate request.startDate)).divConst
    ((msPerDay : Int) : ℚ)).add (JsNum.num 1)

/-- The `catch` and `finally` of `handleLeaveApproval`: show the message, stop
loading; the re-fetch was not reached. -/
def approvalFailed (db : Database) (st : DashState) (err : JsError) : ApprovalResult :=
  { db := db,
    state := { st with error := messageOr err "Failed to update leave request.", loading := false },
    refetch := false, warned := false }

/-- The end of the `try` block of `handleLeaveApproval`: `fetchDashboardData()`
is called and not awaited (it sets `loading` and clears `error` before its
first await), then `finally` clears `loading`. -/
def approvalDone (db : Database) (st : DashState) (warned : Bool) : ApprovalResult :=
  { db := db, state := { st with error := "", loading := false }, refetch := true,
    warned := warned }

/-- The branch `if (currentBalance) { ... } else { console.warn(...) }` and
what follows it. -/
def applyBalance (faults : ApprovalFaults) (db : Database) (st : DashState) (days : JsNum)
    (currentBalance : Option LeaveBalance) : ApprovalResult :=
  match currentBalance with
  | some balance =>
    let newTaken := balance.takenDays.add days
    let newRemaining := balance.accruedDays.sub newTaken
    match faults.balanceUpdate with
    | some err => approvalFailed db st err
    | none =>
      -- update({ takenDays: newTaken, remainingDays: newRemaining }).eq('id', currentBalance.id)
      approvalDone { db with leaveBalances := db.leaveBalances.map (fun b =>
        if b.id = balance.id then { b with takenDays := newTaken, remainingDays := newRemaining }
        else b) } st false
  | none => approvalDone db st true

/-- `handleLeaveApproval(requestId, status)`, up to the return of the handler. -/
def handleLeaveApproval (faults : ApprovalFaults) (db : Database) (st : DashState)
    (requestId : Nat) (status : String) : ApprovalResult :=
  -- setLoading(true); setError('');
  let st1 := { st with loading := true, error := "" }
  match faults.statusUpdate with
  | some err => approvalFailed db st1 err
  | none =>
    -- update({ status: status }).eq('id', requestId)
    let db1 := { db with leaveRequests :=
      db.leaveRequests.map (fun r => if r.id = requestId then { r with status := status } else r) }
    if status = "approved" then
      match st.leaveApplications.find? (fun req => decide (req.id = requestId)) with
      | none => approvalDone db1 st1 false
      | some request =>
        let days := diffDays request
        let response : Option LeaveBalance × Option JsError :=
          match faults.balanceFetch with
          | some err => (none, some err)
          | none => single (db1.leaveBalances.filter (fun b =>
              decide (b.employeeId = request.employeeId ∧ b.leaveType = request.leaveType)))
        match response.2 with
        | some err =>
          if err.code ≠ some "PGRST116" then approvalFailed db1 st1 err
          else applyBalance faults db1 st1 days response.1
        | none => applyBalance faults db1 st1 days response.1
    else approvalDone db1 st1 false


/-! ## HR dashboard data (`HrAdminDashboard.jsx`: `fetchDashboardData`) -/

/-- A row of `employees` as the dashboard selects it (`id, department`). -/
structure EmployeeSummary where
  id : Nat
  department : String
  deriving DecidableEq, Repr

/-- A row of `offboardingTasks` as the dashboard selects it (`employeeId`). -/
structure OffboardingTask where
  employeeId : Nat
  deriving DecidableEq, Repr

/-- `parseFloat(x.toFixed(2))` on an exact value: the multiple of 1/100
nearest to `x`, and of two equally near ones the one further from zero.  The
source computes on doubles, where a ratio that is exactly halfway may be stored
just below the tie and round the other way (23 of 160 is 14.375 and gives
14.37); what is proved of the rate is therefore the distance of at most 1/200
from the exact ratio, which holds of either rounding. -/
def toFixed2 (x : ℚ) : ℚ :=
  if x < 0 then -((⌊-x * 100 + 1 / 2⌋ : ℤ) : ℚ) / 100
  else ((⌊x * 100 + 1 / 2⌋ : ℤ) : ℚ) / 100

/-- The expression `totalEmployees > 0 ? (turnoverCount / totalEmployees) * 100 : 0`. -/
def turnoverRate (totalEmployees turnoverCount : Nat) : ℚ :=
  if totalEmployees > 0 then ((turnoverCount : ℚ) / (totalEmployees : ℚ)) * 100 else 0

/-- Outcome of each select of `fetchDashboardData` (`none`: it returns its
rows; `some err`: it returns `err` in its `error` field). -/
structure DashboardFaults where
  employees : Option JsError
  offboarding : Option JsError
  pendingLeaves : Option JsError
  deriving DecidableEq, Repr

/-- No select fails. -/
def DashboardFaults.none : DashboardFaults :=
  { employees := Option.none, offboarding := Option.none, pendingLeaves := Option.none }

/-- All `useState` cells of `HrAdminDashboard`: the numbers of the chart's one
dataset (empty before the first fetch) and the cells the approval handler uses. -/
structure HrDashboardState where
  turnoverData : List JsNum
  dash : DashState
  deriving DecidableEq

/-- The `catch` and `finally` of `fetchDashboardData`: `setError(err.message)`
(a missing message shows nothing), then `setLoading(false)`. -/
def fetchFailed (st : HrDashboardState) (err : JsError) : HrDashboardState :=
  { st with dash := { st.dash with error := err.message.getD "", loading := false } }

/-- `fetchDashboardData`, run to completion against the tables `employees`,
`offboardingTasks` (as selected) and `db.leaveRequests`. -/
def fetchDashboardData (faults : DashboardFaults) (employees : List EmployeeSummary)
    (offboardedEmployees : List OffboardingTask) (db : Database) (st : HrDashboardState) :
    HrDashboardState :=
  -- setLoading(true); setError('');
  let st1 : HrDashboardState := { st with dash := { st.dash with loading := true, error := "" } }
  match faults.employees with
  | some empError => fetchFailed st1 empError
  | none =>
    match faults.offboarding with
    | some offboardError => fetchFailed st1 offboardError
    | none =>
      let totalEmployees := employees.length
      let turnoverCount := offboardedEmployees.length
      let st2 : HrDashboardState := { st1 with turnoverData :=
        [JsNum.num totalEmployees, JsNum.num turnoverCount,
         JsNum.num (toFixed2 (turnoverRate totalEmployees turnoverCount))] }
      match faults.pendingLeaves with
      | some leaveError => fetchFailed st2 leaveError
      | none =>
        -- select(...).eq('status', 'pending'); setLeaveApplications(pendingLeaves)
        { st2 with dash :=
          { leaveApplications := db.leaveRequests.filter (fun r => decide (r.status = "pending")),
            loading := false, error := "" } }

/-- Worked example: one pending three-day request and the balance it draws on. -/
def demoRequest : LeaveRequest :=
  { id := 1, employeeId := 7, leaveType := "vacation", startDate := "2024-01-01",
    endDate := "2024-01-03", reason := "", status := "pending" }

/-- Worked example: the tables holding `demoRequest` and a balance of 20
accrued, 2 taken, 18 remaining days. -/
def demoDatabase : Database :=
  { leaveRequests := [demoRequest],
    leaveBalances := [{ id := 10, employeeId := 7, leaveType := "vacation",
                        accruedDays := JsNum.num 20, takenDays := JsNum.num 2,
                        remainingDays := JsNum.num 18 }] }

/-- Worked example: the dashboard after it has fetched `demoDatabase`. -/
def demoDashboard : DashState :=
  { leaveApplications := [demoRequest], loading := false, error := "" }

/-! ## Auth controller (`AuthContext.jsx`: `AuthProvider`) -/

/-- A row of `employees` as the auth controller reads and writes it. -/
structure EmployeeRecord where
  user_id : String
  email : String
  firstName : String
  lastName : String
  hireDate : String
  status : String
  role : JsVal
  deriving DecidableEq, Repr

/-- The session object of the auth provider, as far as the controller looks at it. -/
structure AuthSession where
  user : User
  deriving DecidableEq, Repr

/-- The `user` cell: the identity, spread together with `employeeData` when a
record was found or created, bare (`employeeData = none`) otherwise. -/
structure AuthUser where
  identity : User
  employeeData : Option EmployeeRecord
  deriving DecidableEq, Repr

/-- The `useState` cells of `AuthProvider`. -/
structure AuthState where
  session : Option AuthSession
  user : Option AuthUser
  loading : Bool
  currentUserRole : JsVal
  deriving DecidableEq, Repr

/-- The cells as first rendered. -/
def AuthState.initial : AuthState :=
  { session := none, user := none, loading := true, currentUserRole := JsVal.str "employee" }

/-- The expression `data.role || 'employee'`: the stored role when it is a
non-empty string, `'employee'` when it is missing, `null` or empty. -/
def roleOrEmployee (role : JsVal) : JsVal :=
  match role with
  | JsVal.str s => if s = "" then JsVal.str "employee" else JsVal.str s
  | _ => JsVal.str "employee"

/-- `String.prototype.split` with a one-character separator, on the characters
of a string: the pieces between the separators, at least one piece. -/
def splitOnChar (sep : Char) : List Char → List (List Char)
  | [] => [[]]
  | c :: cs =>
    if c = sep then [] :: splitOnChar sep cs
    else
      match splitOnChar sep cs with
      | [] => [[c]]
      | piece :: pieces => (c :: piece) :: pieces

/-- The part of the JavaScript engine that the controller calls and the
repository does not contain: `String.prototype.toUpperCase` on a string of one
character of the Basic Multilingual Plane, as the characters of the result
(upper-casing is Unicode-aware and may lengthen the string: `é` gives `É`, `ß`
gives `SS`). -/
class JsEngine where
  toUpperCase : Char → List Char

/-- An engine for worked examples on ASCII text: it upper-cases the letters
`a` to `z`, as every engine does, and leaves every other character as it is.
It is the engine of the closed examples of this file, whose texts are ASCII. -/
instance asciiEngine : JsEngine where
  toUpperCase := fun c => [c.toUpper]

/-- The expression `part.charAt(0).toUpperCase()` for a part that starts with
the character `c`.  `charAt(0)` is the first UTF-16 code unit: the character
itself when it is of the Basic Multilingual Plane, otherwise the first half of
its surrogate pair, which upper-casing leaves as it is. -/
def charAtZeroUpper [JsEngine] (c : Char) : List Char :=
  if c.toNat < 65536 then JsEngine.toUpperCase c else [c]

/-- The expression `part ? part.charAt(0).toUpperCase() + part.slice(1) : fallback`
for a piece of the split (`none`: there is no such piece; the empty piece is
falsy).  For a first character outside the Basic Multilingual Plane
`part.slice(1)` starts with the second half of its surrogate pair, so the sum
is the part unchanged. -/
def capitalizeOr [JsEngine] (part : Option (List Char)) (fallback : String) : String :=
  match part with
  | some (c :: cs) => String.mk (charAtZeroUpper c ++ cs)
  | _ => fallback

/-- The first and last name derived from an email address:
`email.split('@')[0].split('.')`, first two pieces, capitalised. -/
def derivedName [JsEngine] (email : String) : String × String :=
  let localPart := (splitOnChar '@' email.data).headD []
  let parts := splitOnChar '.' localPart
  (capitalizeOr parts.head? "New", capitalizeOr (parts.tail.head?) "User")

/-- Outcome of the remote calls of `ensureEmployeeRecord` (`none`: the call
does what it is asked; `some err`: it returns `err` and changes nothing). -/
structure EnsureFaults where
  lookup : Option JsError
  insert : Option JsError
  deriving DecidableEq, Repr

/-- No remote call fails. -/
def EnsureFaults.none : EnsureFaults := { lookup := Option.none, insert := Option.none }

/-- The modifier `.single()` on a select of `employees`: the row when exactly
one matches, otherwise no data and the error coded `PGRST116`. -/
def singleRecord (rows : List EmployeeRecord) : Option EmployeeRecord × Option JsError :=
  match rows with
  | [r] => (some r, none)
  | _ => (none, some { message := some "JSON object requested, multiple (or no) rows returned",
                       code := some "PGRST116" })

/-- The `catch` blocks of `ensureEmployeeRecord` and of
`createEmployeeRecordForNewUser`: fall back to `'employee'` and the bare identity. -/
def roleFallback (st : AuthState) (supabaseUser : User) : AuthState :=
  { st with currentUserRole := JsVal.str "employee",
            user := some { identity := supabaseUser, employeeData := none } }

/-- The object `createEmployeeRecordForNewUser` passes to `insert`; `today` is
`new Date().toISOString().split('T')[0]`. -/
def provisionedRecord [JsEngine] (supabaseUser : User) (today : String) : EmployeeRecord :=
  { user_id := supabaseUser.id, email := supabaseUser.email,
    firstName := (derivedName supabaseUser.email).1,
    lastName := (derivedName supabaseUser.email).2,
    hireDate := today, status := "Active", role := JsVal.str "employee" }

/-- `createEmployeeRecordForNewUser`, against the table `employees`. -/
def createEmployeeRecordForNewUser [JsEngine] (insertError : Option JsError) (today : String)
    (employees : List EmployeeRecord) (st : AuthState) (supabaseUser : Option User) :
    List EmployeeRecord × AuthState :=
  match supabaseUser with
  | none => (employees, st)
  | some u =>
    let row := provisionedRecord u today
    match insertError with
    | some _ => (employees, roleFallback st u)
    | none =>
      -- insert([row]).select().single() returns the row as stored
      (employees ++ [row],
       { st with currentUserRole := roleOrEmployee row.role,
                 user := some { identity := u, employeeData := some row } })

/-- `ensureEmployeeRecord`, against the table `employees`. -/
def ensureEmployeeRecord [JsEngine] (faults : EnsureFaults) (today : String)
    (employees : List EmployeeRecord) (st : AuthState) (supabaseUser : Option User) :
    List EmployeeRecord × AuthState :=
  match supabaseUser with
  | none => (employees, { st with currentUserRole := JsVal.str "employee", user := none })
  | some u =>
    let response : Option EmployeeRecord × Option JsError :=
      match faults.lookup with
      | some err => (none, some err)
      | none => singleRecord (employees.filter (fun r => decide (r.user_id = u.id)))
    let found : List EmployeeRecord × AuthState :=
      match response.1 with
      | some data =>
        (employees,
         { st with currentUserRole := roleOrEmployee data.role,
                   user := some { identity := u, employeeData := some data } })
      | none => createEmployeeRecordForNewUser faults.insert today employees st (some u)
    match response.2 with
    | some err => if err.code ≠ some "PGRST116" then (employees, roleFallback st u) else found
    | none => found

/-- One transition of the auth controller, with the outcome of its remote calls. -/
inductive AuthAction where
  /-- The `onAuthStateChange` callback, called with `currentSession`. -/
  | authStateChange (currentSession : Option AuthSession) (faults : EnsureFaults)
      (today : String)
  /-- The initial session check; `error` is what `getSession` returned or threw. -/
  | getInitialSession (error : Option JsError) (initialSession : Option AuthSession)
      (faults : EnsureFaults) (today : String)
  /-- The method `signIn`; on success the provider returns `session` and `user`. -/
  | signIn (error : Option JsError) (session : AuthSession) (user : User)
      (faults : EnsureFaults) (today : String)
  /-- The method `signUp`; on success the provider returns `user`, possibly `null`. -/
  | signUp (error : Option JsError) (user : Option User) (insertError : Option JsError)
      (today : String)
  /-- The method `signOut`; `error` is what the remote sign-out returned. -/
  | signOut (error : Option JsError)
  /-- A change of the `employees` table made elsewhere (HR editing a record). -/
  | backendWrite (employees : List EmployeeRecord)

/-- The `onAuthStateChange` callback. -/
def onAuthStateChange [JsEngine] (currentSession : Option AuthSession) (faults : EnsureFaults)
    (today : String) (employees : List EmployeeRecord) (st : AuthState) :
    List EmployeeRecord × AuthState :=
  let after : List EmployeeRecord × AuthState :=
    match currentSession with
    | some s => ensureEmployeeRecord faults today employees { st with session := some s } (some s.user)
    | none =>
      (employees, { st with session := none, user := none, currentUserRole := JsVal.str "employee" })
  (after.1, { after.2 with loading := false })

/-- `getInitialSession`: the initial session check on mount. -/
def getInitialSession [JsEngine] (error : Option JsError) (initialSession : Option AuthSession)
    (faults : EnsureFaults) (today : String) (employees : List EmployeeRecord)
    (st : AuthState) : List EmployeeRecord × AuthState :=
  let after : List EmployeeRecord × AuthState :=
    match error with
    | some _ => (employees, st)
    | none =>
      match initialSession with
      | some s =>
        ensureEmployeeRecord faults today employees { st with session := some s } (some s.user)
      | none => (employees, st)
  (after.1, { after.2 with loading := false })

/-- The method `signIn`, as far as it changes the cells (its returned
`{ success, error }` object is left out). -/
def signIn [JsEngine] (error : Option JsError) (session : AuthSession) (user : User)
    (faults : EnsureFaults) (today : String) (employees : List EmployeeRecord)
    (st : AuthState) : List EmployeeRecord × AuthState :=
  match error with
  | some _ => (employees, st)
  | none => ensureEmployeeRecord faults today employees { st with session := some session } (some user)

/-- The method `signUp`, as far as it changes the cells. -/
def signUp [JsEngine] (error : Option JsError) (user : Option User) (insertError : Option JsError)
    (today : String) (employees : List EmployeeRecord) (st : AuthState) :
    List EmployeeRecord × AuthState :=
  match error with
  | some _ => (employees, st)
  | none => createEmployeeRecordForNewUser insertError today employees st user

/-- The method `signOut`, as far as it changes the cells: the cells are
cleared after `if (error) throw error`, so only when the remote call succeeded. -/
def signOut (error : Option JsError) (st : AuthState) : AuthState :=
  match error with
  | some _ => st
  | none => { st with session := none, user := none, currentUserRole := JsVal.str "employee" }

/-- `logout` of `AuthContext.js`, the other auth context of the repository, on
its `session` cell: `await supabase.auth.signOut(); setSession(null);`, which
does not look at what the remote call returned.  Here `_error` is an error the
call returns in its result, as the client does for a failed sign-out; a call
that threw would leave `logout` before `setSession(null)` and is not modelled. -/
def logout (_error : Option JsError) (_session : Option Session) : Option Session :=
  none

/-- One transition of the auth controller on the `employees` table and the cells. -/
def authStep [JsEngine] (world : List EmployeeRecord × AuthState) (action : AuthAction) :
    List EmployeeRecord × AuthState :=
  match action with
  | AuthAction.authStateChange currentSession faults today =>
    onAuthStateChange currentSession faults today world.1 world.2
  | AuthAction.getInitialSession error initialSession faults today =>
    getInitialSession error initialSession faults today world.1 world.2
  | AuthAction.signIn error session user faults today =>
    signIn error session user faults today world.1 world.2
  | AuthAction.signUp error user insertError today =>
    signUp error user insertError today world.1 world.2
  | AuthAction.signOut error => (world.1, signOut error world.2)
  | AuthAction.backendWrite employees => (employees, world.2)

/-- The table and the cells after a sequence of transitions. -/
def authRun [JsEngine] (world : List EmployeeRecord × AuthState) (actions : List AuthAction) :
    List EmployeeRecord × AuthState :=
  actions.foldl authStep world

/-- The enumeration of roles named by the specification. -/
def roleEnumeration : List JsVal :=
  [JsVal.str "employee", JsVal.str "hr_admin", JsVal.str "unknown"]

/-- The invariant behind the role enumeration: stored roles are of the
enumeration or falsy, and the role cell is of the enumeration. -/
def RolesEnumerated (world : List EmployeeRecord × AuthState) : Prop :=
  (∀ r ∈ world.1, r.role ∈ [JsVal.undefined, JsVal.null, JsVal.str ""] ++ roleEnumeration) ∧
  world.2.currentUserRole ∈ roleEnumeration

/-! ## Route table (`App.js`: `AppContent`) -/

/-- What the application shows for a location. -/
inductive View where
  | loadingAuthentication
  | loadingApplication
  | authPage
  | employeeDashboard
  | hrAdminDashboard
  | unauthorizedPage
  | navigate (target : String)
  deriving DecidableEq, Repr

/-- A `PrivateRoute` element around a page: the page when the guard renders
its children, the guard's own placeholder or redirect otherwise. -/
def guarded (guard : Element) (page : View) : View :=
  match guard with
  | Element.loadingPlaceholder => View.loadingApplication
  | Element.navigate target => View.navigate target
  | Element.children => page

/-- A `<Route path=... element=... />`. -/
structure RouteEntry where
  path : String
  element : View
  deriving DecidableEq, Repr

/-- `<Routes>`: the element of the first route, other than the catch-all `*`,
whose path matches the location, and the element of the catch-all when none
does; `none` when nothing matches.  `matchPath pattern pathname` is the router
library's test of one pattern against the location. -/
def Routes (matchPath : String → String → Bool) (routes : List RouteEntry)
    (pathname : String) : Option View :=
  match routes.find? (fun r => decide (r.path ≠ "*") && matchPath r.path pathname) with
  | some r => some r.element
  | none => (routes.find? (fun r => decide (r.path = "*"))).map (fun r => r.element)

/-- A route matcher that takes a pattern to match the location equal to it. -/
def exactPath (pattern pathname : String) : Bool :=
  decide (pattern = pathname)

/-- `AppContent` of `App.js`: what is shown below the header for a location. -/
def AppContent (matchPath : String → String → Bool) (loading : Bool)
    (session : Option Session) (pathname : String) : Option View :=
  if loading then some View.loadingAuthentication
  else
    Routes matchPath
      [{ path := "/",
         element :=
           match session with
           | some s =>
             if s.role = JsVal.str "hr_admin" then View.navigate "/hr-admin-dashboard"
             else View.navigate "/employee-dashboard"
           | none => View.authPage },
       { path := "/employee-dashboard",
         element := guarded
           (PrivateRoute loading session (some [JsVal.str "employee", JsVal.str "hr_admin"]))
           View.employeeDashboard },
       { path := "/hr-admin-dashboard",
         element := guarded (PrivateRoute loading session (some [JsVal.str "hr_admin"]))
           View.hrAdminDashboard },
       { path := "/unauthorized", element := View.unauthorizedPage },
       { path := "*", element := View.navigate "/" }]
      pathname

/-! ## Route table (`App.jsx`: `AppContent`) -/

/-- The `<Route>` children of `<Routes>` in `App.jsx`, the variant `main.jsx`
mounts, in source order: the route table of `App.js` with other paths, other
redirect targets and other role lists.  `loading` and `session` are the values
the components take from the auth context. -/
def AppJsx.routeTable (loading : Bool) (session : Option Session) : List RouteEntry :=
  [{ path := "/",
     element :=
       match session with
       | some s =>
         if s.role = JsVal.str "hr_admin" then View.navigate "./HrAdminDashboard.jsx"
         else View.navigate "./EmployeeDashboard.jsx"
       | none => View.authPage },
   { path := "./EmployeeDashboard.jsx",
     element := guarded
       (PrivateRoute loading session (some [JsVal.str "employee", JsVal.str "hrAdmin"]))
       View.employeeDashboard },
   { path := "./HrAdminDashboard.jsx",
     element := guarded (PrivateRoute loading session (some [JsVal.str "hrAdmin"]))
       View.hrAdminDashboard },
   { path := "/unauthorized", element := View.unauthorizedPage },
   { path := "*", element := View.navigate "/" }]

/-- `AppContent` of `App.jsx`: what is shown below the header for a location.
Which route a location selects, and which location a redirect target such as
`./HrAdminDashboard.jsx` resolves to, is the router's matter: both stay behind
the parameter `matchPath`. -/
def AppJsx.AppContent (matchPath : String → String → Bool) (loading : Bool)
    (session : Option Session) (pathname : String) : Option View :=
  if loading then some View.loadingAuthentication
  else Routes matchPath (AppJsx.routeTable loading session) pathname

/-! ## Lemmas: JavaScript values and the calendar -/

theorem includes_iff (xs : List JsVal) (v : JsVal) : includes xs v = true ↔ v ∈ xs := by
  unfold includes
  rw [List.any_eq_true]
  constructor
  · rintro ⟨x, hx, h⟩
    have : x = v := of_decide_eq_true h
    exact this ▸ hx
  · intro h
    exact ⟨v, h, decide_eq_true rfl⟩

theorem daysBeforeMonth_succ (y m : Nat) (h1 : 1 ≤ m) :
    daysBeforeMonth y (m + 1) = daysBeforeMonth y m + daysInMonth y m := by
  obtain ⟨k, rfl⟩ : ∃ k, m = k + 1 := ⟨m - 1, by omega⟩
  simp [daysBeforeMonth, List.range_succ]

theorem daysBeforeMonth_one (y : Nat) : daysBeforeMonth y 1 = 0 := by
  simp [daysBeforeMonth]

theorem yearLength (y : Nat) :
    dayFromYear (y + 1) = dayFromYear y + 365 + (if isLeapYear y then 1 else 0) := by
  unfold dayFromYear isLeapYear
  push_cast
  split_ifs with h <;> simp at h <;> omega

theorem dayFromYear_mono (y z : Nat) (h : y ≤ z) : dayFromYear y ≤ dayFromYear z := by
  induction z, h using Nat.le_induction with
  | base => exact le_rfl
  | succ k hk ih =>
    rw [yearLength]
    split_ifs <;> omega

/-- The calendar of year `y` in linear form: `l` is its leap day (0 or 1). -/
theorem calendarFacts (y : Nat) : ∃ l : Nat, l ≤ 1 ∧
    dayFromYear (y + 1) = dayFromYear y + 365 + (l : Int) ∧
    (daysInMonth y 1 = 31 ∧ daysInMonth y 2 = 28 + l ∧ daysInMonth y 3 = 31 ∧
     daysInMonth y 4 = 30 ∧ daysInMonth y 5 = 31 ∧ daysInMonth y 6 = 30 ∧
     daysInMonth y 7 = 31 ∧ daysInMonth y 8 = 31 ∧ daysInMonth y 9 = 30 ∧
     daysInMonth y 10 = 31 ∧ daysInMonth y 11 = 30 ∧ daysInMonth y 12 = 31) ∧
    (daysBeforeMonth y 1 = 0 ∧ daysBeforeMonth y 2 = 31 ∧ daysBeforeMonth y 3 = 59 + l ∧
     daysBeforeMonth y 4 = 90 + l ∧ daysBeforeMonth y 5 = 120 + l ∧
     daysBeforeMonth y 6 = 151 + l ∧ daysBeforeMonth y 7 = 181 + l ∧
     daysBeforeMonth y 8 = 212 + l ∧ daysBeforeMonth y 9 = 243 + l ∧
     daysBeforeMonth y 10 = 273 + l ∧ daysBeforeMonth y 11 = 304 + l ∧
     daysBeforeMonth y 12 = 334 + l) := by
  refine ⟨if isLeapYear y then 1 else 0, by split_ifs <;> omega, ?_, ?_, ?_⟩
  · rw [yearLength]; split_ifs <;> simp
  · refine ⟨rfl, ?_, rfl, rfl, rfl, rfl, rfl, rfl, rfl, rfl, rfl, rfl⟩
    simp only [daysInMonth]; split_ifs <;> rfl
  · have h1 := daysBeforeMonth_one y
    have h2 := daysBeforeMonth_succ y 1 (by omega)
    have h3 := daysBeforeMonth_succ y 2 (by omega)
    have h4 := daysBeforeMonth_succ y 3 (by omega)
    have h5 := daysBeforeMonth_succ y 4 (by omega)
    have h6 := daysBeforeMonth_succ y 5 (by omega)
    have h7 := daysBeforeMonth_succ y 6 (by omega)
    have h8 := daysBeforeMonth_succ y 7 (by omega)
    have h9 := daysBeforeMonth_succ y 8 (by omega)
    have h10 := daysBeforeMonth_succ y 9 (by omega)
    have h11 := daysBeforeMonth_succ y 10 (by omega)
    have h12 := daysBeforeMonth_succ y 11 (by omega)
    have e1 : daysInMonth y 1 = 31 := rfl
    have e2 : daysInMonth y 2 = 28 + (if isLeapYear y then 1 else 0) := by
      simp only [daysInMonth]; split_ifs <;> rfl
    have e3 : daysInMonth y 3 = 31 := rfl
    have e4 : daysInMonth y 4 = 30 := rfl
    have e5 : daysInMonth y 5 = 31 := rfl
    have e6 : daysInMonth y 6 = 30 := rfl
    have e7 : daysInMonth y 7 = 31 := rfl
    have e8 : daysInMonth y 8 = 31 := rfl
    have e9 : daysInMonth y 9 = 30 := rfl
    have e10 : daysInMonth y 10 = 31 := rfl
    have e11 : daysInMonth y 11 = 30 := rfl
    simp only [Nat.reduceAdd] at h2 h3 h4 h5 h6 h7 h8 h9 h10 h11 h12
    generalize (if isLeapYear y then 1 else 0) = l at *
    omega

/-- Stepping to the next calendar day adds one to the day number. -/
theorem epochDay_nextDay (c : CivilDate) (hv : c.valid) :
    epochDay (nextDay c) = epochDay c + 1 := by
  obtain ⟨y, m, d⟩ := c
  obtain ⟨hm1, hm12, hd1, hd⟩ := hv
  simp only at hm1 hm12 hd1 hd
  unfold nextDay
  simp only
  split_ifs with h1 h2
  · simp only [epochDay]; push_cast; ring
  · have hd' : d = daysInMonth y m := by omega
    simp only [epochDay, daysBeforeMonth_succ y m hm1]
    push_cast
    omega
  · obtain ⟨l, hl, hy, hdim, hdbm⟩ := calendarFacts y
    have hm : m = 12 := by omega
    subst hm
    have h1 := daysBeforeMonth_one (y + 1)
    simp only [epochDay]
    rw [hy, h1]
    omega

/-- The next calendar day exists. -/
theorem nextDay_valid (c : CivilDate) (hv : c.valid) : (nextDay c).valid := by
  obtain ⟨y, m, d⟩ := c
  obtain ⟨hm1, hm12, hd1, hd⟩ := hv
  simp only at hm1 hm12 hd1 hd
  obtain ⟨l, hl, hy, hdim, hdbm⟩ := calendarFacts y
  unfold nextDay
  simp only
  split_ifs with h1 h2
  · exact ⟨hm1, hm12, by simp, by simp only; omega⟩
  · refine ⟨by simp, by simp only; omega, by simp, ?_⟩
    simp only
    interval_cases m <;> simp only [Nat.reduceAdd] <;> omega
  · exact ⟨by simp, by simp, by simp, by simp [daysInMonth]⟩

theorem addDays_valid (n : Nat) (c : CivilDate) (hv : c.valid) : (addDays n c).valid := by
  induction n with
  | zero => exact hv
  | succ k ih => exact nextDay_valid _ ih

theorem epochDay_addDays (n : Nat) (c : CivilDate) (hv : c.valid) :
    epochDay (addDays n c) = epochDay c + n := by
  induction n with
  | zero => simp [addDays]
  | succ k ih =>
    simp only [addDays]
    rw [epochDay_nextDay _ (addDays_valid k c hv), ih]
    push_cast; ring

theorem daysBeforeMonth_mono (y j k : Nat) (h1 : 1 ≤ j) (h : j ≤ k) :
    daysBeforeMonth y j ≤ daysBeforeMonth y k := by
  induction k, h using Nat.le_induction with
  | base => exact le_rfl
  | succ k hk ih =>
    rw [daysBeforeMonth_succ y k (by omega)]
    omega

/-- A date's offset within its year stays within the year's length. -/
theorem dayOfYear_le (y m : Nat) (hm1 : 1 ≤ m) (hm12 : m ≤ 12) :
    dayFromYear y + (daysBeforeMonth y m : Int) + (daysInMonth y m : Int)
      ≤ dayFromYear (y + 1) := by
  obtain ⟨l, hl, hy, hdim, hdbm⟩ := calendarFacts y
  rw [hy]
  have : daysBeforeMonth y m + daysInMonth y m ≤ 365 + l := by
    clear hy
    interval_cases m <;> omega
  omega

/-- The day number grows with the calendar order. -/
theorem epochDay_lt_of_before (a b : CivilDate) (ha : a.valid) (hb : b.valid)
    (h : a.before b) : epochDay a < epochDay b := by
  obtain ⟨y, m, d⟩ := a
  obtain ⟨z, n, e⟩ := b
  obtain ⟨hm1, hm12, hd1, hd⟩ := ha
  obtain ⟨hn1, hn12, he1, he⟩ := hb
  simp only at hm1 hm12 hd1 hd hn1 hn12 he1 he
  simp only [CivilDate.before] at h
  simp only [epochDay]
  rcases h with h | ⟨rfl, h⟩
  · have hmono := dayFromYear_mono (y + 1) z (by omega)
    have hyear := dayOfYear_le y m hm1 hm12
    omega
  · rcases h with h | ⟨rfl, h⟩
    · have hstep := daysBeforeMonth_succ y m hm1
      have := daysBeforeMonth_mono y (m + 1) n (by omega) (by omega)
      omega
    · omega

theorem digitVal_digitChar : ∀ k : Nat, k < 10 → digitVal (digitChar k) = some k := by
  decide

/-- A date of the calendar passes the engine's range test. -/
theorem valid_dayInRange (c : CivilDate) (hv : c.valid) : dayInRange c := by
  obtain ⟨y, m, d⟩ := c
  obtain ⟨hm1, hm12, hd1, hd⟩ := hv
  simp only at hm1 hm12 hd1 hd
  refine ⟨hm1, hm12, hd1, ?_⟩
  simp only
  obtain ⟨l, hl, _, hdim, _⟩ := calendarFacts y
  interval_cases m <;> omega

/-- Reading back the date-only string of a date gives the date. -/
theorem parseDateOnly_isoDate (c : CivilDate) (hv : c.valid) (hy : c.year ≤ 9999) :
    parseDateOnly (isoDate c) = some c := by
  obtain ⟨y, m, d⟩ := c
  have hv' := hv
  obtain ⟨hm1, hm12, hd1, hd⟩ := hv'
  simp only at hm1 hm12 hd1 hd hy
  have hd31 : d ≤ 31 := by
    obtain ⟨l, hl, _, hdim, _⟩ := calendarFacts y
    interval_cases m <;> omega
  simp only [parseDateOnly, isoDate, and_self, if_true,
    digitVal_digitChar (y / 1000) (by omega), digitVal_digitChar (y / 100 % 10) (by omega),
    digitVal_digitChar (y / 10 % 10) (by omega), digitVal_digitChar (y % 10) (by omega),
    digitVal_digitChar (m / 10) (by omega), digitVal_digitChar (m % 10) (by omega),
    digitVal_digitChar (d / 10) (by omega), digitVal_digitChar (d % 10) (by omega)]
  have e1 : 1000 * (y / 1000) + 100 * (y / 100 % 10) + 10 * (y / 10 % 10) + y % 10 = y := by omega
  have e2 : 10 * (m / 10) + m % 10 = m := by omega
  have e3 : 10 * (d / 10) + d % 10 = d := by omega
  rw [e1, e2, e3, if_pos (valid_dayInRange _ hv)]

theorem newDate_isoDate (c : CivilDate) (hv : c.valid) (hy : c.year ≤ 9999) :
    newDate (isoDate c) = some (epochDay c * msPerDay) := by
  simp [newDate, parseDateOnly_isoDate c hv hy]

theorem isoDate_ne_empty (c : CivilDate) : isoDate c ≠ "" := by
  intro h
  have := congrArg String.length h
  simp [isoDate, String.length] at this

/-- A date a `Date` can hold has a year of at most six digits. -/
theorem year_le_of_epochDay_le (c : CivilDate) (hv : c.valid) (h : epochDay c ≤ maxEpochDay) :
    c.year ≤ 275760 := by
  by_contra hlt
  have hy : 275761 ≤ c.year := by omega
  have hmono := dayFromYear_mono 275761 c.year hy
  have h0 : dayFromYear 275761 = 100000110 := by decide
  have hd1 := hv.2.2.1
  simp only [epochDay, maxEpochDay] at h
  omega

theorem parseDateOnly_dateString_long (c : CivilDate) (hy : 9999 < c.year) :
    parseDateOnly (dateString c) = none := by
  unfold dateString
  rw [if_neg (by omega)]
  split_ifs <;> rfl

/-- Reading back the value of a date input for a year past 9999 gives the date. -/
theorem parseLongYear_dateString (c : CivilDate) (hv : c.valid) (hy : 9999 < c.year)
    (hy2 : c.year ≤ 999999) : parseLongYear (dateString c) = some c := by
  have hr := valid_dayInRange c hv
  obtain ⟨y, m, d⟩ := c
  have hr' := hr
  obtain ⟨hm1, hm12, hd1, hd31⟩ := hr'
  simp only at hm1 hm12 hd1 hd31 hy hy2
  have e2 : 10 * (m / 10) + m % 10 = m := by omega
  have e3 : 10 * (d / 10) + d % 10 = d := by omega
  unfold dateString
  rw [if_neg (by simp only; omega)]
  by_cases h5 : y ≤ 99999
  · rw [if_pos (by simpa using h5)]
    simp only [parseLongYear, and_self, if_true,
      digitVal_digitChar (y / 10000) (by omega), digitVal_digitChar (y / 1000 % 10) (by omega),
      digitVal_digitChar (y / 100 % 10) (by omega),
      digitVal_digitChar (y / 10 % 10) (by omega), digitVal_digitChar (y % 10) (by omega),
      digitVal_digitChar (m / 10) (by omega), digitVal_digitChar (m % 10) (by omega),
      digitVal_digitChar (d / 10) (by omega), digitVal_digitChar (d % 10) (by omega)]
    have e1 : 10000 * (y / 10000) + 1000 * (y / 1000 % 10) + 100 * (y / 100 % 10)
        + 10 * (y / 10 % 10) + y % 10 = y := by omega
    rw [e1, e2, e3, if_pos hr]
  · rw [if_neg (by simpa using h5)]
    simp only [parseLongYear, and_self, if_true,
      digitVal_digitChar (y / 100000) (by omega), digitVal_digitChar (y / 10000 % 10) (by omega),
      digitVal_digitChar (y / 1000 % 10) (by omega),
      digitVal_digitChar (y / 100 % 10) (by omega),
      digitVal_digitChar (y / 10 % 10) (by omega), digitVal_digitChar (y % 10) (by omega),
      digitVal_digitChar (m / 10) (by omega), digitVal_digitChar (m % 10) (by omega),
      digitVal_digitChar (d / 10) (by omega), digitVal_digitChar (d % 10) (by omega)]
    have e1 : 100000 * (y / 100000) + 10000 * (y / 10000 % 10) + 1000 * (y / 1000 % 10)
        + 100 * (y / 100 % 10) + 10 * (y / 10 % 10) + y % 10 = y := by omega
    rw [e1, e2, e3, if_pos hr]

/-- The time value of the value of a date input, for every date a `Date` can hold. -/
theorem newDate_dateString (c : CivilDate) (hv : c.valid) (h : epochDay c ≤ maxEpochDay) :
    newDate (dateString c) = some (epochDay c * msPerDay) := by
  by_cases hy : c.year ≤ 9999
  · have e : dateString c = isoDate c := by unfold dateString; rw [if_pos hy]
    rw [e, newDate_isoDate c hv hy]
  · have hy6 := year_le_of_epochDay_le c hv h
    unfold newDate
    rw [parseDateOnly_dateString_long c (by omega),
      parseLongYear_dateString c hv (by omega) (by omega)]
    simp only [h, if_true]

theorem dateString_ne_empty (c : CivilDate) : dateString c ≠ "" := by
  intro h
  have := congrArg String.length h
  unfold dateString at this
  split_ifs at this <;> simp [isoDate, String.length] at this

/-- Any two dates are ordered one way, or are the same date. -/
theorem before_trichotomy (a b : CivilDate) : a.before b ∨ a = b ∨ b.before a := by
  obtain ⟨y, m, d⟩ := a
  obtain ⟨z, n, e⟩ := b
  simp only [CivilDate.before, CivilDate.mk.injEq]
  omega

/-- A date that is not after another has a day number that is not greater. -/
theorem epochDay_le_of_not_before (a b : CivilDate) (ha : a.valid) (hb : b.valid)
    (h : ¬ b.before a) : epochDay a ≤ epochDay b := by
  rcases before_trichotomy a b with h1 | h1 | h1
  · exact le_of_lt (epochDay_lt_of_before a b ha hb h1)
  · rw [h1]
  · exact absurd h1 h

/-- Valid dates with the same day number are the same date. -/
theorem epochDay_injective (a b : CivilDate) (ha : a.valid) (hb : b.valid)
    (h : epochDay a = epochDay b) : a = b := by
  rcases before_trichotomy a b with h1 | h1 | h1
  · have := epochDay_lt_of_before a b ha hb h1; omega
  · exact h1
  · have := epochDay_lt_of_before b a hb ha h1; omega

theorem msPerDay_pos : 0 < msPerDay := by decide

/-- On date-only strings the comparison of `Date` objects is the calendar order. -/
theorem dateGt_isoDate (a b : CivilDate) (ha : a.valid) (hb : b.valid)
    (hya : a.year ≤ 9999) (hyb : b.year ≤ 9999) :
    dateGt (newDate (isoDate a)) (newDate (isoDate b)) = true ↔ b.before a := by
  rw [newDate_isoDate a ha hya, newDate_isoDate b hb hyb]
  simp only [dateGt, decide_eq_true_eq]
  rw [mul_lt_mul_right msPerDay_pos]
  constructor
  · intro h
    rcases before_trichotomy b a with h1 | h1 | h1
    · exact h1
    · rw [h1] at h; omega
    · have := epochDay_lt_of_before a b ha hb h1; omega
  · exact epochDay_lt_of_before b a hb ha

/-- On the values of a date input the comparison of `Date` objects is the
calendar order, for every date a `Date` can hold. -/
theorem dateGt_dateString (a b : CivilDate) (ha : a.valid) (hb : b.valid)
    (hmax : epochDay a ≤ maxEpochDay) (hlt : b.before a) :
    dateGt (newDate (dateString a)) (newDate (dateString b)) = true := by
  have hab := epochDay_lt_of_before b a hb ha hlt
  rw [newDate_dateString a ha hmax, newDate_dateString b hb (by omega)]
  simp only [dateGt, decide_eq_true_eq]
  exact (mul_lt_mul_right msPerDay_pos).mpr hab

/-- The day count of a request between two calendar dates, in day numbers. -/
theorem diffDays_isoDate (r : LeaveRequest) (a b : CivilDate) (ha : a.valid) (hb : b.valid)
    (hya : a.year ≤ 9999) (hyb : b.year ≤ 9999)
    (hs : r.startDate = isoDate a) (he : r.endDate = isoDate b) :
    diffDays r = JsNum.num (((epochDay b - epochDay a : Int) : ℚ) + 1) := by
  have hms : ((msPerDay : Int) : ℚ) ≠ 0 := by
    have := msPerDay_pos
    exact_mod_cast this.ne'
  unfold diffDays
  rw [hs, he, newDate_isoDate a ha hya, newDate_isoDate b hb hyb]
  simp only [dateSub, JsNum.divConst, JsNum.add, JsNum.num.injEq]
  push_cast
  field_simp
  ring

/-- Stepping through the calendar reaches every later date, in exactly as many
steps as the day numbers differ. -/
theorem addDays_reaches (a b : CivilDate) (ha : a.valid) (hb : b.valid)
    (h : ¬ b.before a) :
    ∃ n : Nat, addDays n a = b ∧ (n : Int) = epochDay b - epochDay a := by
  have hle := epochDay_le_of_not_before a b ha hb h
  refine ⟨(epochDay b - epochDay a).toNat, ?_, by omega⟩
  apply epochDay_injective _ _ (addDays_valid _ a ha) hb
  rw [epochDay_addDays _ a ha]
  omega

/-- The number of calendar steps between two dates is determined. -/
theorem addDays_steps_unique (a : CivilDate) (ha : a.valid) (j k : Nat)
    (h : addDays j a = addDays k a) : j = k := by
  have h1 := epochDay_addDays j a ha
  have h2 := epochDay_addDays k a ha
  rw [h] at h1
  omega

/-! ## Lemmas: the guard of the leave request form -/

/-- A submission that fails the guard is answered locally. -/
theorem handleSubmit_of_guard (employeeId : Nat) (insertError onSuccessError : Option JsError)
    (st : FormState)
    (h : st.startDate = "" ∨ st.endDate = "" ∨
      dateGt (newDate st.startDate) (newDate st.endDate) = true) :
    handleSubmit employeeId insertError onSuccessError st =
      { state := { st with loading := false, successMessage := "",
                           error := "Please select valid start and end dates." },
        inserts := [], onSuccessCalls := 0 } := by
  unfold handleSubmit
  rw [if_pos h]

/-- A submission that passes the guard sends one insert; the rest depends on
the outcome of the insert and of `onSuccess`. -/
theorem handleSubmit_of_pass (employeeId : Nat) (insertError onSuccessError : Option JsError)
    (st : FormState) (hs : st.startDate ≠ "") (he : st.endDate ≠ "")
    (hd : dateGt (newDate st.startDate) (newDate st.endDate) = false) :
    handleSubmit employeeId insertError onSuccessError st =
      { state :=
          match insertError with
          | some err =>
            { st with loading := false, successMessage := "",
                      error := messageOr err "Failed to submit leave request." }
          | none =>
            { leaveType := "vacation", startDate := "", endDate := "", reason := "",
              loading := false,
              successMessage := "Leave request submitted successfully! [cite: 4]",
              error :=
                match onSuccessError with
                | none => ""
                | some err => messageOr err "Failed to submit leave request." },
        inserts := [{ table := "leaveRequests",
                      row := { employeeId := employeeId, leaveType := st.leaveType,
                               startDate := st.startDate, endDate := st.endDate,
                               reason := st.reason, status := "pending" } }],
        onSuccessCalls := match insertError with
          | some _ => 0
          | none => 1 } := by
  unfold handleSubmit
  rw [if_neg (by simp [hs, he, hd])]
  cases insertError <;> cases onSuccessError <;> rfl

/-! ## Route guard -/

/-- Claim C1. With `loading = false` and a session, `PrivateRoute` renders its
children exactly when `allowedRoles` is absent or contains `session.role`, and
in exactly the other cases it redirects to `/unauthorized`. -/
theorem privateRoute_renders_iff_role_allowed (s : Session)
    (allowedRoles : Option (List JsVal)) :
    (PrivateRoute false (some s) allowedRoles = Element.children ↔
      (allowedRoles = none ∨ ∃ roles, allowedRoles = some roles ∧ s.role ∈ roles)) ∧
    (PrivateRoute false (some s) allowedRoles = Element.navigate "/unauthorized" ↔
      ¬ (allowedRoles = none ∨ ∃ roles, allowedRoles = some roles ∧ s.role ∈ roles)) := by
  cases allowedRoles with
  | none => simp [PrivateRoute]
  | some roles =>
    by_cases h : s.role ∈ roles
    · have hi : includes roles s.role = true := (includes_iff roles s.role).mpr h
      simp [PrivateRoute, hi, h]
    · have hi : includes roles s.role = false := by
        cases hc : includes roles s.role with
        | false => rfl
        | true => exact absurd ((includes_iff roles s.role).mp hc) h
      simp [PrivateRoute, hi, h]

/-- Claim C2. While `loading = true`, `PrivateRoute` returns the loading
placeholder, whatever the session and `allowedRoles`: neither the children nor
a redirect to any target. -/
theorem privateRoute_loading_placeholder (session : Option Session)
    (allowedRoles : Option (List JsVal)) :
    PrivateRoute true session allowedRoles = Element.loadingPlaceholder ∧
    PrivateRoute true session allowedRoles ≠ Element.children ∧
    ∀ target, PrivateRoute true session allowedRoles ≠ Element.navigate target := by
  simp [PrivateRoute]

/-- Claim C3. With `loading = false` and no session, `PrivateRoute` redirects
to the login route `/` and does not render its children, whatever
`allowedRoles` is. -/
theorem privateRoute_no_session_redirects_to_login (allowedRoles : Option (List JsVal)) :
    PrivateRoute false none allowedRoles = Element.navigate "/" ∧
    PrivateRoute false none allowedRoles ≠ Element.children := by
  simp [PrivateRoute]

/-! ## Leave request form -/

/-- Claim C4. A submission whose start date is missing, whose end date is
missing, or whose start date falls after its end date in the calendar sets the
validation error, sends no insert, does not call `onSuccess`, and leaves the
four form fields as they were.  The dates are any two dates of the calendar as
the date input writes them, years of four, five or six digits, up to
275760-09-13, the last day a `Date` holds. -/
theorem handleSubmit_rejects_invalid_dates (employeeId : Nat)
    (insertError onSuccessError : Option JsError) (st : FormState)
    (h : st.startDate = "" ∨ st.endDate = "" ∨
      ∃ a b : CivilDate, a.valid ∧ b.valid ∧ epochDay a ≤ maxEpochDay ∧
        st.startDate = dateString a ∧ st.endDate = dateString b ∧ b.before a) :
    (handleSubmit employeeId insertError onSuccessError st).state.error
      = "Please select valid start and end dates." ∧
    (handleSubmit employeeId insertError onSuccessError st).inserts = [] ∧
    (handleSubmit employeeId insertError onSuccessError st).onSuccessCalls = 0 ∧
    (handleSubmit employeeId insertError onSuccessError st).state.leaveType = st.leaveType ∧
    (handleSubmit employeeId insertError onSuccessError st).state.startDate = st.startDate ∧
    (handleSubmit employeeId insertError onSuccessError st).state.endDate = st.endDate ∧
    (handleSubmit employeeId insertError onSuccessError st).state.reason = st.reason := by
  have hg : st.startDate = "" ∨ st.endDate = "" ∨
      dateGt (newDate st.startDate) (newDate st.endDate) = true := by
    rcases h with h | h | ⟨a, b, ha, hb, hmax, hs, he, hlt⟩
    · exact Or.inl h
    · exact Or.inr (Or.inl h)
    · exact Or.inr (Or.inr (by rw [hs, he]; exact dateGt_dateString a b ha hb hmax hlt))
  rw [handleSubmit_of_guard employeeId insertError onSuccessError st hg]
  exact ⟨rfl, rfl, rfl, rfl, rfl, rfl, rfl⟩

theorem handleSubmit_rejects_invalid_dates_witness :
    (CivilDate.before ⟨2024, 1, 3⟩ ⟨10000, 1, 1⟩) ∧
    (handleSubmit 7 none none ⟨"sick", "10000-01-01", "2024-01-03", "flu", false, "", ""⟩).inserts
      = [] ∧
    (handleSubmit 7 none none
      ⟨"sick", "10000-01-01", "2024-01-03", "flu", false, "", ""⟩).state.error
      = "Please select valid start and end dates." ∧
    (handleSubmit 7 none none ⟨"sick", "2024-01-03", "2024-01-01", "flu", false, "", ""⟩).inserts
      = [] :=
  have h := handleSubmit_rejects_invalid_dates 7 none none
    ⟨"sick", "10000-01-01", "2024-01-03", "flu", false, "", ""⟩
    (Or.inr (Or.inr ⟨⟨10000, 1, 1⟩, ⟨2024, 1, 3⟩, by decide, by decide, by decide,
      by decide, by decide, by decide⟩))
  have h2 := handleSubmit_rejects_invalid_dates 7 none none
    ⟨"sick", "2024-01-03", "2024-01-01", "flu", false, "", ""⟩
    (Or.inr (Or.inr ⟨⟨2024, 1, 3⟩, ⟨2024, 1, 1⟩, by decide, by decide, by decide,
      by decide, by decide, by decide⟩))
  ⟨by decide, h.2.1, h.1, h2.2.1⟩

/-- Claim C5. A submission with both dates present and the start date on or
before the end date (the same day included) sends exactly one insert, into
`leaveRequests`; the row has status `pending` and the form's `employeeId`,
`leaveType`, `startDate`, `endDate` and `reason` as they are. -/
theorem handleSubmit_inserts_one_pending (employeeId : Nat)
    (insertError onSuccessError : Option JsError) (st : FormState) (a b : CivilDate)
    (ha : a.valid) (hb : b.valid) (hya : a.year ≤ 9999) (hyb : b.year ≤ 9999)
    (hs : st.startDate = isoDate a) (he : st.endDate = isoDate b) (hle : ¬ b.before a) :
    (handleSubmit employeeId insertError onSuccessError st).inserts =
      [{ table := "leaveRequests",
         row := { employeeId := employeeId, leaveType := st.leaveType,
                  startDate := st.startDate, endDate := st.endDate,
                  reason := st.reason, status := "pending" } }] := by
  have h1 : st.startDate ≠ "" := hs ▸ isoDate_ne_empty a
  have h2 : st.endDate ≠ "" := he ▸ isoDate_ne_empty b
  have h3 : dateGt (newDate st.startDate) (newDate st.endDate) = false := by
    rw [hs, he]
    cases hc : dateGt (newDate (isoDate a)) (newDate (isoDate b)) with
    | false => rfl
    | true => exact absurd ((dateGt_isoDate a b ha hb hya hyb).mp hc) hle
  rw [handleSubmit_of_pass employeeId insertError onSuccessError st h1 h2 h3]

theorem handleSubmit_inserts_one_pending_witness :
    ¬ (CivilDate.before ⟨2024, 1, 1⟩ ⟨2024, 1, 1⟩) ∧
    (handleSubmit 7 none none ⟨"sick", "2024-01-01", "2024-01-01", "flu", false, "", ""⟩).inserts
      = [⟨"leaveRequests", ⟨7, "sick", "2024-01-01", "2024-01-01", "flu", "pending"⟩⟩] :=
  ⟨by decide,
   handleSubmit_inserts_one_pending 7 none none
    ⟨"sick", "2024-01-01", "2024-01-01", "flu", false, "", ""⟩ ⟨2024, 1, 1⟩ ⟨2024, 1, 1⟩
    (by decide) (by decide) (by decide) (by decide) (by decide) (by decide) (by decide)⟩

/-- Claim C6. For a submission that passes validation: when the insert
succeeds the form is reset to its initial values (`vacation`, empty start
date, end date and reason) and `onSuccess` is called exactly once; when the
insert fails the four fields keep their values and `onSuccess` is not called. -/
theorem handleSubmit_reset_on_success_only (employeeId : Nat) (onSuccessError : Option JsError)
    (st : FormState) (hs : st.startDate ≠ "") (he : st.endDate ≠ "")
    (hd : dateGt (newDate st.startDate) (newDate st.endDate) = false) :
    ((handleSubmit employeeId none onSuccessError st).state.leaveType = "vacation" ∧
     (handleSubmit employeeId none onSuccessError st).state.startDate = "" ∧
     (handleSubmit employeeId none onSuccessError st).state.endDate = "" ∧
     (handleSubmit employeeId none onSuccessError st).state.reason = "" ∧
     (handleSubmit employeeId none onSuccessError st).onSuccessCalls = 1) ∧
    ∀ err : JsError,
      (handleSubmit employeeId (some err) onSuccessError st).state.leaveType = st.leaveType ∧
      (handleSubmit employeeId (some err) onSuccessError st).state.startDate = st.startDate ∧
      (handleSubmit employeeId (some err) onSuccessError st).state.endDate = st.endDate ∧
      (handleSubmit employeeId (some err) onSuccessError st).state.reason = st.reason ∧
      (handleSubmit employeeId (some err) onSuccessError st).onSuccessCalls = 0 := by
  refine ⟨?_, fun err => ?_⟩
  · rw [handleSubmit_of_pass employeeId none onSuccessError st hs he hd]
    exact ⟨rfl, rfl, rfl, rfl, rfl⟩
  · rw [handleSubmit_of_pass employeeId (some err) onSuccessError st hs he hd]
    exact ⟨rfl, rfl, rfl, rfl, rfl⟩

theorem handleSubmit_reset_on_success_only_witness :
    (handleSubmit 7 none none ⟨"sick", "2024-01-01", "2024-01-03", "flu", false, "", ""⟩).state.leaveType
      = "vacation" ∧
    (handleSubmit 7 none none ⟨"sick", "2024-01-01", "2024-01-03", "flu", false, "", ""⟩).onSuccessCalls
      = 1 ∧
    (handleSubmit 7 (some ⟨some "row-level security", none⟩) none
      ⟨"sick", "2024-01-01", "2024-01-03", "flu", false, "", ""⟩).state.reason = "flu" :=
  have h := handleSubmit_reset_on_success_only 7 none
    ⟨"sick", "2024-01-01", "2024-01-03", "flu", false, "", ""⟩
    (by decide) (by decide) (by decide)
  ⟨h.1.1, h.1.2.2.2.2, (h.2 ⟨some "row-level security", none⟩).2.2.2.1⟩

/-- Counterexample to claim C7 as stated: the insert returns an error whose
message is the empty string, and the form shows the fallback text, not the
(empty) message. -/
theorem handleSubmit_empty_message_not_verbatim :
    (handleSubmit 7 (some ⟨some "", none⟩) none
      ⟨"sick", "2024-01-01", "2024-01-03", "flu", false, "", ""⟩).inserts.length = 1 ∧
    (handleSubmit 7 (some ⟨some "", none⟩) none
      ⟨"sick", "2024-01-01", "2024-01-03", "flu", false, "", ""⟩).state.error
      = "Failed to submit leave request." ∧
    (handleSubmit 7 (some ⟨some "", none⟩) none
      ⟨"sick", "2024-01-01", "2024-01-03", "flu", false, "", ""⟩).state.error ≠ "" := by
  decide

/-- Claim C7, amended. For a submission that passes validation and whose
insert returns an error: when the error carries a non-empty message `m`, the
form ends with its displayed error equal to `m`; when the message is empty or
missing, it ends with the fallback text `Failed to submit leave request.`. -/
theorem handleSubmit_shows_provider_message (employeeId : Nat) (err : JsError)
    (onSuccessError : Option JsError) (st : FormState)
    (hs : st.startDate ≠ "") (he : st.endDate ≠ "")
    (hd : dateGt (newDate st.startDate) (newDate st.endDate) = false) :
    (∀ m : String, err.message = some m → m ≠ "" →
      (handleSubmit employeeId (some err) onSuccessError st).state.error = m) ∧
    ((err.message = none ∨ err.message = some "") →
      (handleSubmit employeeId (some err) onSuccessError st).state.error
        = "Failed to submit leave request.") := by
  rw [handleSubmit_of_pass employeeId (some err) onSuccessError st hs he hd]
  refine ⟨fun m hm hne => ?_, fun h => ?_⟩
  · simp [messageOr, hm, hne]
  · rcases h with h | h <;> simp [messageOr, h]

theorem handleSubmit_shows_provider_message_witness :
    (handleSubmit 7 (some ⟨some "new row violates row-level security policy", some "42501"⟩) none
      ⟨"sick", "2024-01-01", "2024-01-03", "flu", false, "", ""⟩).state.error
      = "new row violates row-level security policy" :=
  (handleSubmit_shows_provider_message 7
    ⟨some "new row violates row-level security policy", some "42501"⟩ none
    ⟨"sick", "2024-01-01", "2024-01-03", "flu", false, "", ""⟩
    (by decide) (by decide) (by decide)).1 _ rfl (by decide)

/-! ## HR approval flow -/

/-- Claim C8. For a request whose start and end are calendar dates with the
start on or before the end, the day count charged on approval is the number of
days from start to end plus one: if the end is reached from the start in `n`
calendar steps (and `n` is the only such number), the count is `n + 1`. -/
theorem diffDays_counts_inclusive (r : LeaveRequest) (a b : CivilDate)
    (ha : a.valid) (hb : b.valid) (hya : a.year ≤ 9999) (hyb : b.year ≤ 9999)
    (hs : r.startDate = isoDate a) (he : r.endDate = isoDate b) (hle : ¬ b.before a) :
    ∃ n : Nat, addDays n a = b ∧ (∀ k : Nat, addDays k a = b → k = n) ∧
      diffDays r = JsNum.num ((n : ℚ) + 1) := by
  obtain ⟨n, hn, hdiff⟩ := addDays_reaches a b ha hb hle
  refine ⟨n, hn, fun k hk => addDays_steps_unique a ha k n (hk.trans hn.symm), ?_⟩
  rw [diffDays_isoDate r a b ha hb hya hyb hs he, ← hdiff]
  push_cast
  rfl

theorem diffDays_counts_inclusive_witness :
    diffDays ⟨1, 7, "vacation", "2024-01-01", "2024-01-03", "", "pending"⟩ = JsNum.num 3 ∧
    diffDays ⟨2, 7, "vacation", "2024-02-29", "2024-02-29", "", "pending"⟩ = JsNum.num 1 := by
  constructor
  · obtain ⟨n, _, huniq, hd⟩ := diffDays_counts_inclusive
      ⟨1, 7, "vacation", "2024-01-01", "2024-01-03", "", "pending"⟩ ⟨2024, 1, 1⟩ ⟨2024, 1, 3⟩
      (by decide) (by decide) (by decide) (by decide) (by decide) (by decide) (by decide)
    have h2 : 2 = n := huniq 2 (by decide)
    rw [hd, ← h2]
    norm_num
  · obtain ⟨n, _, huniq, hd⟩ := diffDays_counts_inclusive
      ⟨2, 7, "vacation", "2024-02-29", "2024-02-29", "", "pending"⟩ ⟨2024, 2, 29⟩ ⟨2024, 2, 29⟩
      (by decide) (by decide) (by decide) (by decide) (by decide) (by decide) (by decide)
    have h0 : 0 = n := huniq 0 (by decide)
    rw [hd, ← h0]
    norm_num

/-- Claim C9. Approving a request of the dashboard list whose employee and
leave type have a balance row (all remote calls succeeding) sets the status of
the request to `approved` and rewrites that balance row, and no other, to
`takenDays + dayCount` and `accruedDays - (takenDays + dayCount)`: afterwards
`remainingDays = accruedDays - takenDays` holds on it whatever `remainingDays`
was, and `accruedDays` is as before. -/
theorem handleLeaveApproval_approve_updates_balance (db : Database) (st : DashState)
    (requestId : Nat) (request : LeaveRequest) (balance : LeaveBalance)
    (hreq : st.leaveApplications.find? (fun req => decide (req.id = requestId)) = some request)
    (hbal : db.leaveBalances.filter (fun b =>
      decide (b.employeeId = request.employeeId ∧ b.leaveType = request.leaveType)) = [balance])
    (hkey : ∀ b ∈ db.leaveBalances, b.id = balance.id → b = balance) :
    (handleLeaveApproval ApprovalFaults.none db st requestId "approved").db.leaveRequests =
      db.leaveRequests.map
        (fun q => if q.id = requestId then { q with status := "approved" } else q) ∧
    (handleLeaveApproval ApprovalFaults.none db st requestId "approved").db.leaveBalances =
      db.leaveBalances.map (fun b =>
        if b = balance then
          { balance with
            takenDays := balance.takenDays.add (diffDays request),
            remainingDays := balance.accruedDays.sub (balance.takenDays.add (diffDays request)) }
        else b) ∧
    (∀ b ∈ (handleLeaveApproval ApprovalFaults.none db st requestId "approved").db.leaveBalances,
      b.id = balance.id →
        b.remainingDays = b.accruedDays.sub b.takenDays ∧ b.accruedDays = balance.accruedDays) ∧
    (∀ t c d : ℚ, balance.takenDays = JsNum.num t → balance.accruedDays = JsNum.num c →
      diffDays request = JsNum.num d →
      { balance with takenDays := JsNum.num (t + d), remainingDays := JsNum.num (c - (t + d)) }
        ∈ (handleLeaveApproval ApprovalFaults.none db st requestId "approved").db.leaveBalances) ∧
    (handleLeaveApproval ApprovalFaults.none db st requestId "approved").state.error = "" := by
  have hmem : balance ∈ db.leaveBalances := by
    have : balance ∈ db.leaveBalances.filter (fun b =>
        decide (b.employeeId = request.employeeId ∧ b.leaveType = request.leaveType)) := by
      rw [hbal]; exact List.mem_singleton.mpr rfl
    exact (List.mem_filter.mp this).1
  have hrun : handleLeaveApproval ApprovalFaults.none db st requestId "approved" =
      approvalDone
        { leaveRequests := db.leaveRequests.map
            (fun q => if q.id = requestId then { q with status := "approved" } else q),
          leaveBalances := db.leaveBalances.map (fun b =>
            if b = balance then
              { balance with
                takenDays := balance.takenDays.add (diffDays request),
                remainingDays :=
                  balance.accruedDays.sub (balance.takenDays.add (diffDays request)) }
            else b) }
        { st with loading := true, error := "" } false := by
    have hmap : db.leaveBalances.map (fun b =>
          if b.id = balance.id then
            { b with
              takenDays := balance.takenDays.add (diffDays request),
              remainingDays :=
                balance.accruedDays.sub (balance.takenDays.add (diffDays request)) }
          else b) =
        db.leaveBalances.map (fun b =>
          if b = balance then
            { balance with
              takenDays := balance.takenDays.add (diffDays request),
              remainingDays :=
                balance.accruedDays.sub (balance.takenDays.add (diffDays request)) }
          else b) := by
      apply List.map_congr_left
      intro b hb
      by_cases hid : b.id = balance.id
      · have : b = balance := hkey b hb hid
        subst this
        simp
      · have : b ≠ balance := fun h => hid (h ▸ rfl)
        simp [hid, this]
    simp only [handleLeaveApproval, ApprovalFaults.none, hreq, hbal, single, applyBalance,
      if_true, hmap]
  rw [hrun]
  refine ⟨rfl, rfl, ?_, ?_, rfl⟩
  · intro b hb hid
    simp only [approvalDone, List.mem_map] at hb
    obtain ⟨b0, hb0, rfl⟩ := hb
    by_cases h : b0 = balance
    · simp [h]
    · have : b0.id ≠ balance.id := fun hh => h (hkey b0 hb0 (by simpa [h] using hid ▸ hh))
      simp [h] at hid
      exact absurd hid this
  · intro t c d ht hc hd
    simp only [approvalDone, List.mem_map]
    exact ⟨balance, hmem, by simp [ht, hc, hd, JsNum.add, JsNum.sub]⟩

theorem handleLeaveApproval_approve_updates_balance_witness :
    (handleLeaveApproval ApprovalFaults.none
      ⟨[⟨1, 7, "vacation", "2024-01-01", "2024-01-03", "", "pending"⟩],
       [⟨10, 7, "vacation", JsNum.num 20, JsNum.num 2, JsNum.num 99⟩,
        ⟨11, 7, "sick", JsNum.num 10, JsNum.num 0, JsNum.num 10⟩]⟩
      ⟨[⟨1, 7, "vacation", "2024-01-01", "2024-01-03", "", "pending"⟩], false, ""⟩
      1 "approved").db.leaveRequests
      = [⟨1, 7, "vacation", "2024-01-01", "2024-01-03", "", "approved"⟩] ∧
    (⟨10, 7, "vacation", JsNum.num 20, JsNum.num (2 + 3), JsNum.num (20 - (2 + 3))⟩ :
        LeaveBalance) ∈
      (handleLeaveApproval ApprovalFaults.none
        ⟨[⟨1, 7, "vacation", "2024-01-01", "2024-01-03", "", "pending"⟩],
         [⟨10, 7, "vacation", JsNum.num 20, JsNum.num 2, JsNum.num 99⟩,
          ⟨11, 7, "sick", JsNum.num 10, JsNum.num 0, JsNum.num 10⟩]⟩
        ⟨[⟨1, 7, "vacation", "2024-01-01", "2024-01-03", "", "pending"⟩], false, ""⟩
        1 "approved").db.leaveBalances := by
  have h := handleLeaveApproval_approve_updates_balance
    ⟨[⟨1, 7, "vacation", "2024-01-01", "2024-01-03", "", "pending"⟩],
     [⟨10, 7, "vacation", JsNum.num 20, JsNum.num 2, JsNum.num 99⟩,
      ⟨11, 7, "sick", JsNum.num 10, JsNum.num 0, JsNum.num 10⟩]⟩
    ⟨[⟨1, 7, "vacation", "2024-01-01", "2024-01-03", "", "pending"⟩], false, ""⟩
    1 ⟨1, 7, "vacation", "2024-01-01", "2024-01-03", "", "pending"⟩
    ⟨10, 7, "vacation", JsNum.num 20, JsNum.num 2, JsNum.num 99⟩
    (by decide) (by rfl)
    (by
      intro b hb hid
      simp only [List.mem_cons, List.mem_singleton, List.not_mem_nil, or_false] at hb
      rcases hb with rfl | rfl
      · rfl
      · exact absurd hid (by decide))
  have hd : diffDays ⟨1, 7, "vacation", "2024-01-01", "2024-01-03", "", "pending"⟩
      = JsNum.num 3 := by
    rw [diffDays_isoDate _ ⟨2024, 1, 1⟩ ⟨2024, 1, 3⟩ (by decide) (by decide) (by decide)
      (by decide) (by decide) (by decide),
      show epochDay ⟨2024, 1, 3⟩ - epochDay ⟨2024, 1, 1⟩ = 2 from by decide]
    norm_num
  exact ⟨h.1, h.2.2.2.1 2 20 3 rfl rfl hd⟩

/-- Claim C10. Approving a request of the dashboard list whose employee and
leave type have no balance row (the remote calls succeeding) still sets the
status of the request to `approved`; the balance table is left exactly as it
was (no row added, none changed), no error is shown, and only the diagnostic
warning is logged. -/
theorem handleLeaveApproval_approve_without_balance (db : Database) (st : DashState)
    (requestId : Nat) (request : LeaveRequest)
    (hreq : st.leaveApplications.find? (fun req => decide (req.id = requestId)) = some request)
    (hbal : db.leaveBalances.filter (fun b =>
      decide (b.employeeId = request.employeeId ∧ b.leaveType = request.leaveType)) = []) :
    (handleLeaveApproval ApprovalFaults.none db st requestId "approved").db.leaveRequests =
      db.leaveRequests.map
        (fun q => if q.id = requestId then { q with status := "approved" } else q) ∧
    (handleLeaveApproval ApprovalFaults.none db st requestId "approved").db.leaveBalances =
      db.leaveBalances ∧
    (handleLeaveApproval ApprovalFaults.none db st requestId "approved").state.error = "" ∧
    (handleLeaveApproval ApprovalFaults.none db st requestId "approved").warned = true := by
  have hrun : handleLeaveApproval ApprovalFaults.none db st requestId "approved" =
      approvalDone
        { leaveRequests := db.leaveRequests.map
            (fun q => if q.id = requestId then { q with status := "approved" } else q),
          leaveBalances := db.leaveBalances }
        { st with loading := true, error := "" } true := by
    simp only [handleLeaveApproval, ApprovalFaults.none, hreq, hbal, single, applyBalance,
      if_true, ne_eq, not_true_eq_false, if_false]
  rw [hrun]
  exact ⟨rfl, rfl, rfl, rfl⟩

theorem handleLeaveApproval_approve_without_balance_witness :
    (handleLeaveApproval ApprovalFaults.none
      ⟨[⟨1, 7, "maternity", "2024-01-01", "2024-01-03", "", "pending"⟩],
       [⟨10, 7, "vacation", JsNum.num 20, JsNum.num 2, JsNum.num 18⟩]⟩
      ⟨[⟨1, 7, "maternity", "2024-01-01", "2024-01-03", "", "pending"⟩], false, ""⟩
      1 "approved").db
      = ⟨[⟨1, 7, "maternity", "2024-01-01", "2024-01-03", "", "approved"⟩],
         [⟨10, 7, "vacation", JsNum.num 20, JsNum.num 2, JsNum.num 18⟩]⟩ := by
  have h := handleLeaveApproval_approve_without_balance
    ⟨[⟨1, 7, "maternity", "2024-01-01", "2024-01-03", "", "pending"⟩],
     [⟨10, 7, "vacation", JsNum.num 20, JsNum.num 2, JsNum.num 18⟩]⟩
    ⟨[⟨1, 7, "maternity", "2024-01-01", "2024-01-03", "", "pending"⟩], false, ""⟩
    1 ⟨1, 7, "maternity", "2024-01-01", "2024-01-03", "", "pending"⟩
    (by decide) (by rfl)
  exact congrArg₂ Database.mk h.1 h.2.1

/-! ## Lemmas: the HR dashboard -/

/-- Approval of a request of the list with exactly one matching balance row,
all remote calls succeeding, as one equation. -/
theorem handleLeaveApproval_approve_found (db : Database) (st : DashState)
    (requestId : Nat) (request : LeaveRequest) (balance : LeaveBalance)
    (hreq : st.leaveApplications.find? (fun req => decide (req.id = requestId)) = some request)
    (hbal : db.leaveBalances.filter (fun b =>
      decide (b.employeeId = request.employeeId ∧ b.leaveType = request.leaveType)) = [balance]) :
    handleLeaveApproval ApprovalFaults.none db st requestId "approved" =
      { db :=
          { leaveRequests := db.leaveRequests.map
              (fun q => if q.id = requestId then { q with status := "approved" } else q),
            leaveBalances := db.leaveBalances.map (fun b =>
              if b.id = balance.id then
                { b with
                  takenDays := balance.takenDays.add (diffDays request),
                  remainingDays :=
                    balance.accruedDays.sub (balance.takenDays.add (diffDays request)) }
              else b) },
        state := { st with loading := false, error := "" },
        refetch := true, warned := false } := by
  simp only [handleLeaveApproval, ApprovalFaults.none, hreq, hbal, single, applyBalance,
    if_true, approvalDone]

/-- Approval of a request that is not in the list changes no balance. -/
theorem handleLeaveApproval_unlisted_keeps_balances (faults : ApprovalFaults) (db : Database)
    (st : DashState) (requestId : Nat)
    (hreq : st.leaveApplications.find? (fun req => decide (req.id = requestId)) = none) :
    (handleLeaveApproval faults db st requestId "approved").db.leaveBalances
      = db.leaveBalances := by
  unfold handleLeaveApproval
  cases faults.statusUpdate with
  | some err => rfl
  | none => simp only [hreq, if_true]; rfl

theorem diffDays_demoRequest : diffDays demoRequest = JsNum.num 3 := by
  rw [diffDays_isoDate demoRequest ⟨2024, 1, 1⟩ ⟨2024, 1, 3⟩ (by decide) (by decide) (by decide)
    (by decide) (by decide) (by decide),
    show epochDay ⟨2024, 1, 3⟩ - epochDay ⟨2024, 1, 1⟩ = 2 from by decide]
  norm_num

/-- A status update that fails ends the handler at once. -/
theorem handleLeaveApproval_of_update_error (err : JsError)
    (balanceFetch balanceUpdate : Option JsError) (db : Database) (st : DashState)
    (requestId : Nat) (status : String) :
    handleLeaveApproval ⟨some err, balanceFetch, balanceUpdate⟩ db st requestId status =
      { db := db,
        state := { st with loading := false,
                           error := messageOr err "Failed to update leave request." },
        refetch := false, warned := false } := rfl

/-- Rounding to hundredths stays within half a hundredth. -/
theorem toFixed2_near (x : ℚ) (hx : 0 ≤ x) :
    (∃ n : ℤ, toFixed2 x = (n : ℚ) / 100) ∧ |toFixed2 x - x| ≤ 1 / 200 := by
  have hneg : ¬ x < 0 := not_lt.mpr hx
  simp only [toFixed2, hneg, if_false]
  refine ⟨⟨_, rfl⟩, ?_⟩
  have h1 := Int.floor_le (x * 100 + 1 / 2)
  have h2 := Int.lt_floor_add_one (x * 100 + 1 / 2)
  rw [abs_le]
  constructor <;> linarith

theorem turnoverRate_nonneg (totalEmployees turnoverCount : Nat) :
    0 ≤ turnoverRate totalEmployees turnoverCount := by
  unfold turnoverRate
  split_ifs
  · positivity
  · exact le_rfl

/-! ## Lemmas: the auth controller -/

theorem roleOrEmployee_mem (role : JsVal)
    (h : role ∈ [JsVal.undefined, JsVal.null, JsVal.str ""] ++ roleEnumeration) :
    roleOrEmployee role ∈ roleEnumeration := by
  simp only [roleEnumeration, List.cons_append, List.nil_append, List.mem_cons,
    List.mem_singleton, List.not_mem_nil, or_false] at h
  rcases h with h | h | h | h | h | h <;> subst h <;> simp [roleOrEmployee, roleEnumeration]

theorem employee_mem_roleEnumeration : JsVal.str "employee" ∈ roleEnumeration := by
  simp [roleEnumeration]

theorem createEmployeeRecordForNewUser_enumerated [JsEngine] (insertError : Option JsError)
    (today : String) (employees : List EmployeeRecord) (st : AuthState)
    (supabaseUser : Option User) (h : RolesEnumerated (employees, st)) :
    RolesEnumerated (createEmployeeRecordForNewUser insertError today employees st supabaseUser) := by
  obtain ⟨ht, hr⟩ := h
  cases supabaseUser with
  | none => exact ⟨ht, hr⟩
  | some u =>
    cases insertError with
    | some err => exact ⟨ht, employee_mem_roleEnumeration⟩
    | none =>
      refine ⟨?_, ?_⟩
      · intro r hr'
        simp only [createEmployeeRecordForNewUser, List.mem_append, List.mem_singleton] at hr'
        rcases hr' with hr' | rfl
        · exact ht r hr'
        · simp [roleEnumeration, provisionedRecord]
      · simp [createEmployeeRecordForNewUser, roleOrEmployee, roleEnumeration, provisionedRecord]

theorem ensureEmployeeRecord_enumerated [JsEngine] (faults : EnsureFaults) (today : String)
    (employees : List EmployeeRecord) (st : AuthState) (supabaseUser : Option User)
    (h : RolesEnumerated (employees, st)) :
    RolesEnumerated (ensureEmployeeRecord faults today employees st supabaseUser) := by
  have ht := h.1
  cases supabaseUser with
  | none => exact ⟨ht, employee_mem_roleEnumeration⟩
  | some u =>
    have hfound : ∀ data : Option EmployeeRecord, (∀ d, data = some d → d ∈ employees) →
        RolesEnumerated (match data with
          | some data =>
            (employees,
             { st with currentUserRole := roleOrEmployee data.role,
                       user := some { identity := u, employeeData := some data } })
          | none => createEmployeeRecordForNewUser faults.insert today employees st (some u)) := by
      intro data hd
      cases data with
      | none => exact createEmployeeRecordForNewUser_enumerated _ _ _ _ _ h
      | some d => exact ⟨ht, roleOrEmployee_mem _ (ht d (hd d rfl))⟩
    have hfallback : RolesEnumerated (employees, roleFallback st u) :=
      ⟨ht, employee_mem_roleEnumeration⟩
    unfold ensureEmployeeRecord
    simp only
    cases hl : faults.lookup with
    | some err =>
      simp only
      split_ifs
      · exact hfallback
      · exact hfound none (by simp)
    | none =>
      simp only
      cases hrows : employees.filter (fun r => decide (r.user_id = u.id)) with
      | nil => simpa [singleRecord] using hfound none (by simp)
      | cons d rest =>
        cases rest with
        | nil =>
          have hd : d ∈ employees := by
            have : d ∈ employees.filter (fun r => decide (r.user_id = u.id)) := by
              rw [hrows]; exact List.mem_singleton.mpr rfl
            exact (List.mem_filter.mp this).1
          simpa [singleRecord] using hfound (some d) (by simp [hd])
        | cons d2 rest2 => simpa [singleRecord] using hfound none (by simp)

theorem authStep_enumerated [JsEngine] (world : List EmployeeRecord × AuthState) (action : AuthAction)
    (h : RolesEnumerated world)
    (hw : ∀ t, action = AuthAction.backendWrite t →
      ∀ r ∈ t, r.role ∈ [JsVal.undefined, JsVal.null, JsVal.str ""] ++ roleEnumeration) :
    RolesEnumerated (authStep world action) := by
  obtain ⟨employees, st⟩ := world
  cases action with
  | authStateChange currentSession faults today =>
    cases currentSession with
    | none => exact ⟨h.1, employee_mem_roleEnumeration⟩
    | some s =>
      have := ensureEmployeeRecord_enumerated faults today employees
        { st with session := some s } (some s.user) ⟨h.1, h.2⟩
      exact ⟨this.1, this.2⟩
  | getInitialSession error initialSession faults today =>
    cases error with
    | some err => exact ⟨h.1, h.2⟩
    | none =>
      cases initialSession with
      | none => exact ⟨h.1, h.2⟩
      | some s =>
        have := ensureEmployeeRecord_enumerated faults today employees
          { st with session := some s } (some s.user) ⟨h.1, h.2⟩
        exact ⟨this.1, this.2⟩
  | signIn error session user faults today =>
    cases error with
    | some err => exact h
    | none =>
      exact ensureEmployeeRecord_enumerated faults today employees
        { st with session := some session } (some user) ⟨h.1, h.2⟩
  | signUp error user insertError today =>
    cases error with
    | some err => exact h
    | none => exact createEmployeeRecordForNewUser_enumerated insertError today employees st user h
  | signOut error =>
    cases error with
    | some err => exact h
    | none => exact ⟨h.1, employee_mem_roleEnumeration⟩
  | backendWrite t => exact ⟨hw t rfl, h.2⟩

theorem authRun_enumerated [JsEngine] (actions : List AuthAction) (world : List EmployeeRecord × AuthState)
    (h : RolesEnumerated world)
    (hw : ∀ t, AuthAction.backendWrite t ∈ actions →
      ∀ r ∈ t, r.role ∈ [JsVal.undefined, JsVal.null, JsVal.str ""] ++ roleEnumeration) :
    RolesEnumerated (authRun world actions) := by
  induction actions generalizing world with
  | nil => exact h
  | cons a rest ih =>
    simp only [authRun, List.foldl_cons]
    apply ih
    · exact authStep_enumerated world a h (fun t ht => hw t (ht ▸ List.mem_cons_self _ _))
    · exact fun t ht => hw t (List.mem_cons_of_mem _ ht)

/-- Looking up or provisioning the employee record touches neither `loading`
nor `session`. -/
theorem createEmployeeRecordForNewUser_frame [JsEngine] (insertError : Option JsError) (today : String)
    (employees : List EmployeeRecord) (st : AuthState) (supabaseUser : Option User) :
    (createEmployeeRecordForNewUser insertError today employees st supabaseUser).2.loading
      = st.loading ∧
    (createEmployeeRecordForNewUser insertError today employees st supabaseUser).2.session
      = st.session := by
  cases supabaseUser <;> cases insertError <;> exact ⟨rfl, rfl⟩

theorem ensureEmployeeRecord_frame [JsEngine] (faults : EnsureFaults) (today : String)
    (employees : List EmployeeRecord) (st : AuthState) (supabaseUser : Option User) :
    (ensureEmployeeRecord faults today employees st supabaseUser).2.loading = st.loading ∧
    (ensureEmployeeRecord faults today employees st supabaseUser).2.session = st.session := by
  cases supabaseUser with
  | none => exact ⟨rfl, rfl⟩
  | some u =>
    have hc := createEmployeeRecordForNewUser_frame faults.insert today employees st (some u)
    unfold ensureEmployeeRecord
    simp only
    split
    · split
      · exact ⟨rfl, rfl⟩
      · split
        · exact ⟨rfl, rfl⟩
        · exact hc
    · split
      · exact ⟨rfl, rfl⟩
      · exact hc

/-- No transition sets `loading`: after a step it is false if it was false. -/
theorem authStep_loading [JsEngine] (world : List EmployeeRecord × AuthState) (action : AuthAction)
    (h : world.2.loading = false) : (authStep world action).2.loading = false := by
  obtain ⟨employees, st⟩ := world
  cases action with
  | authStateChange currentSession faults today => rfl
  | getInitialSession error initialSession faults today => rfl
  | signIn error session user faults today =>
    cases error with
    | some err => exact h
    | none =>
      exact (ensureEmployeeRecord_frame faults today employees
        { st with session := some session } (some user)).1.trans h
  | signUp error user insertError today =>
    cases error with
    | some err => exact h
    | none => exact (createEmployeeRecordForNewUser_frame insertError today employees st user).1.trans h
  | signOut error =>
    cases error with
    | some err => exact h
    | none => exact h
  | backendWrite t => exact h

theorem authRun_loading [JsEngine] (actions : List AuthAction) (world : List EmployeeRecord × AuthState)
    (h : world.2.loading = false) : (authRun world actions).2.loading = false := by
  induction actions generalizing world with
  | nil => exact h
  | cons a rest ih =>
    simp only [authRun, List.foldl_cons]
    exact ih _ (authStep_loading world a h)

/-- The lookup of a table without exactly one row for the identity, and the
lookup answered `PGRST116`, both lead to provisioning. -/
theorem ensureEmployeeRecord_not_found [JsEngine] (faults : EnsureFaults) (today : String)
    (employees : List EmployeeRecord) (st : AuthState) (u : User)
    (h : (faults.lookup = none ∧
          ∀ d, employees.filter (fun r => decide (r.user_id = u.id)) ≠ [d]) ∨
         ∃ err, faults.lookup = some err ∧ err.code = some "PGRST116") :
    ensureEmployeeRecord faults today employees st (some u) =
      createEmployeeRecordForNewUser faults.insert today employees st (some u) := by
  unfold ensureEmployeeRecord
  rcases h with ⟨hl, hrows⟩ | ⟨err, hl, hcode⟩
  · simp only [hl]
    cases hf : employees.filter (fun r => decide (r.user_id = u.id)) with
    | nil => simp [singleRecord]
    | cons d rest =>
      cases rest with
      | nil => exact absurd hf (hrows d)
      | cons d2 rest2 => simp [singleRecord]
  · simp [hl, hcode]

/-- The lookup of a table with exactly one row for the identity finds it and
writes nothing. -/
theorem ensureEmployeeRecord_found [JsEngine] (insertError : Option JsError) (today : String)
    (employees : List EmployeeRecord) (st : AuthState) (u : User) (d : EmployeeRecord)
    (h : employees.filter (fun r => decide (r.user_id = u.id)) = [d]) :
    ensureEmployeeRecord ⟨none, insertError⟩ today employees st (some u) =
      (employees,
       { st with currentUserRole := roleOrEmployee d.role,
                 user := some { identity := u, employeeData := some d } }) := by
  unfold ensureEmployeeRecord
  simp [h, singleRecord]

/-! ## HR dashboard: approval twice, rejection, turnover, failed update -/

/-- Claim C11, evaluated where the code departs from it. The first approval
of the three-day request takes the balance from 2 taken, 18 remaining to 5 and
15, and leaves the request in the list with `loading` false (the re-fetch is
not awaited, and a re-fetch that fails leaves the list as it is); a second
approval from that state adds the three days again: 8 taken, 12 remaining. -/
theorem handleLeaveApproval_twice_counts_twice :
    (handleLeaveApproval ApprovalFaults.none demoDatabase demoDashboard 1 "approved").db.leaveBalances
      = [⟨10, 7, "vacation", JsNum.num 20, JsNum.num 5, JsNum.num 15⟩] ∧
    (handleLeaveApproval ApprovalFaults.none demoDatabase demoDashboard 1 "approved").state
      = demoDashboard ∧
    (handleLeaveApproval ApprovalFaults.none
      (handleLeaveApproval ApprovalFaults.none demoDatabase demoDashboard 1 "approved").db
      (handleLeaveApproval ApprovalFaults.none demoDatabase demoDashboard 1 "approved").state
      1 "approved").db.leaveBalances
      = [⟨10, 7, "vacation", JsNum.num 20, JsNum.num 8, JsNum.num 12⟩] ∧
    (fetchDashboardData ⟨some ⟨some "Failed to fetch", none⟩, none, none⟩ [] []
      (handleLeaveApproval ApprovalFaults.none demoDatabase demoDashboard 1 "approved").db
      ⟨[], (handleLeaveApproval ApprovalFaults.none demoDatabase demoDashboard 1 "approved").state⟩).dash
      = { demoDashboard with error := "Failed to fetch" } ∧
    (handleLeaveApproval ApprovalFaults.none
      (handleLeaveApproval ApprovalFaults.none demoDatabase demoDashboard 1 "approved").db
      { demoDashboard with error := "Failed to fetch" }
      1 "approved").db.leaveBalances
      = [⟨10, 7, "vacation", JsNum.num 20, JsNum.num 8, JsNum.num 12⟩] := by
  have h1 := handleLeaveApproval_approve_found demoDatabase demoDashboard 1 demoRequest
    ⟨10, 7, "vacation", JsNum.num 20, JsNum.num 2, JsNum.num 18⟩ (by decide) (by rfl)
  have h2 := fun st hst => handleLeaveApproval_approve_found
    { leaveRequests := demoDatabase.leaveRequests.map
        (fun q => if q.id = 1 then { q with status := "approved" } else q),
      leaveBalances := [⟨10, 7, "vacation", JsNum.num 20, JsNum.num 5, JsNum.num 15⟩] }
    st 1 demoRequest
    ⟨10, 7, "vacation", JsNum.num 20, JsNum.num 5, JsNum.num 15⟩ hst (by rfl)
  have e1 : (demoDatabase.leaveBalances.map (fun b =>
      if b.id = 10 then
        { b with
          takenDays := (JsNum.num 2).add (diffDays demoRequest),
          remainingDays := (JsNum.num 20).sub ((JsNum.num 2).add (diffDays demoRequest)) }
      else b)) = [⟨10, 7, "vacation", JsNum.num 20, JsNum.num 5, JsNum.num 15⟩] := by
    simp [demoDatabase, diffDays_demoRequest, JsNum.add, JsNum.sub]
    norm_num
  have hst : ({ demoDashboard with loading := false, error := "" } : DashState)
      = demoDashboard := rfl
  rw [h1]
  refine ⟨e1, rfl, ?_, rfl, ?_⟩
  · simp only [e1]
    rw [hst, h2 demoDashboard (by decide)]
    simp [diffDays_demoRequest, JsNum.add, JsNum.sub]
    norm_num
  · simp only [e1]
    rw [h2 { demoDashboard with error := "Failed to fetch" } (by decide)]
    simp [diffDays_demoRequest, JsNum.add, JsNum.sub]
    norm_num

/-- Claim C12. Rejecting a request (the status update succeeding) sets the
status of the rows with that id to `rejected`, leaves every balance as it was,
and removes no request; no balance call is made, since the outcome is the same
whatever the balance calls would return: no error, and the re-fetch is issued. -/
theorem handleLeaveApproval_reject (balanceFetch balanceUpdate : Option JsError)
    (db : Database) (st : DashState) (requestId : Nat) :
    (handleLeaveApproval ⟨none, balanceFetch, balanceUpdate⟩ db st requestId
      "rejected").db.leaveRequests
      = db.leaveRequests.map
          (fun q => if q.id = requestId then { q with status := "rejected" } else q) ∧
    (handleLeaveApproval ⟨none, balanceFetch, balanceUpdate⟩ db st requestId
      "rejected").db.leaveBalances = db.leaveBalances ∧
    (handleLeaveApproval ⟨none, balanceFetch, balanceUpdate⟩ db st requestId
      "rejected").db.leaveRequests.map (fun q => q.id) = db.leaveRequests.map (fun q => q.id) ∧
    (∀ q ∈ (handleLeaveApproval ⟨none, balanceFetch, balanceUpdate⟩ db st requestId
      "rejected").db.leaveRequests, q.id = requestId → q.status = "rejected") ∧
    (handleLeaveApproval ⟨none, balanceFetch, balanceUpdate⟩ db st requestId
      "rejected").state.error = "" ∧
    (handleLeaveApproval ⟨none, balanceFetch, balanceUpdate⟩ db st requestId
      "rejected").refetch = true := by
  have hrun : handleLeaveApproval ⟨none, balanceFetch, balanceUpdate⟩ db st requestId "rejected" =
      approvalDone
        { leaveRequests := db.leaveRequests.map
            (fun q => if q.id = requestId then { q with status := "rejected" } else q),
          leaveBalances := db.leaveBalances }
        { st with loading := true, error := "" } false := by
    simp [handleLeaveApproval]
  rw [hrun]
  refine ⟨rfl, rfl, ?_, ?_, rfl, rfl⟩
  · simp only [approvalDone, List.map_map]
    apply List.map_congr_left
    intro q _
    simp only [Function.comp]
    split_ifs <;> rfl
  · intro q hq hid
    simp only [approvalDone, List.mem_map] at hq
    obtain ⟨q0, _, rfl⟩ := hq
    split_ifs with h
    · rfl
    · split_ifs at hid
      exact absurd hid h

/-- Claim C13. When both selects succeed, `fetchDashboardData` charts the
number of employees, the number of offboarding rows and a rate: 0 when there
is no employee; otherwise a whole number of hundredths within half a hundredth
of (offboarding rows / employees) x 100; and 20 for 10 employees and 2
offboarding rows. -/
theorem fetchDashboardData_turnover (pendingLeaves : Option JsError)
    (employees : List EmployeeSummary) (offboardedEmployees : List OffboardingTask)
    (db : Database) (st : HrDashboardState) :
    ∃ rate : ℚ,
      (fetchDashboardData ⟨none, none, pendingLeaves⟩ employees offboardedEmployees db
        st).turnoverData
        = [JsNum.num employees.length, JsNum.num offboardedEmployees.length, JsNum.num rate] ∧
      (employees.length = 0 → rate = 0) ∧
      (0 < employees.length →
        (∃ n : ℤ, rate = (n : ℚ) / 100) ∧
        |rate - (offboardedEmployees.length : ℚ) / (employees.length : ℚ) * 100| ≤ 1 / 200) ∧
      (employees.length = 10 → offboardedEmployees.length = 2 → rate = 20) := by
  refine ⟨toFixed2 (turnoverRate employees.length offboardedEmployees.length), ?_, ?_, ?_, ?_⟩
  · cases pendingLeaves <;> rfl
  · intro h0
    rw [h0]
    simp [turnoverRate, toFixed2]
    norm_num
  · intro hpos
    have hrate : turnoverRate employees.length offboardedEmployees.length
        = (offboardedEmployees.length : ℚ) / (employees.length : ℚ) * 100 := by
      simp [turnoverRate, hpos]
    have h := toFixed2_near _ (turnoverRate_nonneg employees.length offboardedEmployees.length)
    refine ⟨h.1, ?_⟩
    rw [← hrate]
    exact h.2
  · intro h10 h2
    rw [h10, h2]
    have hx : turnoverRate 10 2 = 20 := by
      simp only [turnoverRate]; norm_num
    rw [hx]
    have hfloor : ⌊(20 : ℚ) * 100 + 1 / 2⌋ = 2000 := by
      rw [Int.floor_eq_iff]; norm_num
    simp only [toFixed2, hfloor]
    norm_num

theorem fetchDashboardData_turnover_witness :
    ∃ rate : ℚ,
      (fetchDashboardData ⟨none, none, none⟩
        [⟨1, "a"⟩, ⟨2, "a"⟩, ⟨3, "a"⟩, ⟨4, "a"⟩, ⟨5, "b"⟩, ⟨6, "b"⟩, ⟨7, "b"⟩, ⟨8, "b"⟩,
         ⟨9, "c"⟩, ⟨10, "c"⟩]
        [⟨3⟩, ⟨9⟩] demoDatabase ⟨[], demoDashboard⟩).turnoverData
        = [JsNum.num 10, JsNum.num 2, JsNum.num rate] ∧ rate = 20 := by
  obtain ⟨rate, hdata, _, _, h20⟩ := fetchDashboardData_turnover none
    [⟨1, "a"⟩, ⟨2, "a"⟩, ⟨3, "a"⟩, ⟨4, "a"⟩, ⟨5, "b"⟩, ⟨6, "b"⟩, ⟨7, "b"⟩, ⟨8, "b"⟩,
     ⟨9, "c"⟩, ⟨10, "c"⟩]
    [⟨3⟩, ⟨9⟩] demoDatabase ⟨[], demoDashboard⟩
  refine ⟨rate, ?_, h20 rfl rfl⟩
  rw [hdata]
  simp

/-- Counterexample to claim C20 as stated: the status update returns an error
whose message is the empty string, and the handler sets the `error` cell to
the fallback text, not to the (empty) message. -/
theorem handleLeaveApproval_empty_message_falls_back :
    (handleLeaveApproval ⟨some ⟨some "", none⟩, none, none⟩ demoDatabase demoDashboard 1
      "approved").state.error = "Failed to update leave request." ∧
    (handleLeaveApproval ⟨some ⟨some "", none⟩, none, none⟩ demoDatabase demoDashboard 1
      "approved").state.error ≠ "" := by
  rw [handleLeaveApproval_of_update_error]
  decide

/-- Claim C20, amended. When the status update returns an error, for `approved`
as for `rejected` (and any other status), the handler stops: the tables are as
they were, no balance call is made (the outcome is the same whatever the
balance calls would return), no re-fetch is issued, and the `error` cell of
the component is set to the message of the error when that is a non-empty
string, to the fallback text `Failed to update leave request.` when it is
empty or missing. -/
theorem handleLeaveApproval_update_error_aborts (err : JsError)
    (balanceFetch balanceUpdate : Option JsError) (db : Database) (st : DashState)
    (requestId : Nat) (status : String) :
    (handleLeaveApproval ⟨some err, balanceFetch, balanceUpdate⟩ db st requestId status).db
      = db ∧
    (handleLeaveApproval ⟨some err, balanceFetch, balanceUpdate⟩ db st requestId status).refetch
      = false ∧
    (∀ m : String, err.message = some m → m ≠ "" →
      (handleLeaveApproval ⟨some err, balanceFetch, balanceUpdate⟩ db st requestId
        status).state.error = m) ∧
    ((err.message = none ∨ err.message = some "") →
      (handleLeaveApproval ⟨some err, balanceFetch, balanceUpdate⟩ db st requestId
        status).state.error = "Failed to update leave request.") := by
  rw [handleLeaveApproval_of_update_error]
  refine ⟨rfl, rfl, fun m hm hne => ?_, fun h => ?_⟩
  · simp [messageOr, hm, hne]
  · rcases h with h | h <;> simp [messageOr, h]

theorem handleLeaveApproval_update_error_aborts_witness :
    (handleLeaveApproval ⟨some ⟨some "permission denied for table leaveRequests", some "42501"⟩,
      none, none⟩ demoDatabase demoDashboard 1 "rejected").state.error
      = "permission denied for table leaveRequests" ∧
    (handleLeaveApproval ⟨some ⟨some "permission denied for table leaveRequests", some "42501"⟩,
      none, none⟩ demoDatabase demoDashboard 1 "rejected").db = demoDatabase :=
  have h := handleLeaveApproval_update_error_aborts
    ⟨some "permission denied for table leaveRequests", some "42501"⟩ none none
    demoDatabase demoDashboard 1 "rejected"
  ⟨h.2.2.1 _ rfl (by decide), h.1⟩

/-! ## Auth controller -/

/-- Claim C14, evaluated where the code departs from it: the remote sign-out
returns an error, and `signOut` of `AuthContext.jsx` leaves every cell as it
was, so the session stays authenticated; `logout` of `AuthContext.js` clears
the session on the same outcome. -/
theorem signOut_remote_error_keeps_session :
    signOut (some ⟨some "Failed to fetch", none⟩)
      { session := some ⟨⟨"u1", "jane.doe@example.com"⟩⟩,
        user := some ⟨⟨"u1", "jane.doe@example.com"⟩, none⟩,
        loading := false, currentUserRole := JsVal.str "hr_admin" }
      = { session := some ⟨⟨"u1", "jane.doe@example.com"⟩⟩,
          user := some ⟨⟨"u1", "jane.doe@example.com"⟩, none⟩,
          loading := false, currentUserRole := JsVal.str "hr_admin" } ∧
    (signOut (some ⟨some "Failed to fetch", none⟩)
      { session := some ⟨⟨"u1", "jane.doe@example.com"⟩⟩,
        user := some ⟨⟨"u1", "jane.doe@example.com"⟩, none⟩,
        loading := false, currentUserRole := JsVal.str "hr_admin" }).session ≠ none ∧
    logout (some ⟨some "Failed to fetch", none⟩)
      (some ⟨⟨"u1", "jane.doe@example.com"⟩, JsVal.str "hr_admin"⟩) = none := by
  decide

/-- Claim C15. When role resolution for an identity fails, that is when the
`employees` lookup returns an error other than not-found, or the lookup finds
no record and the insert of `createEmployeeRecordForNewUser` returns an error,
the controller ends with `currentUserRole = 'employee'`, `user` the bare
identity, the session cell as it was, and the table unchanged. -/
theorem ensureEmployeeRecord_failure_falls_back [JsEngine] (today : String)
    (employees : List EmployeeRecord) (st : AuthState) (u : User) :
    (∀ (err : JsError) (insertError : Option JsError), err.code ≠ some "PGRST116" →
      ensureEmployeeRecord ⟨some err, insertError⟩ today employees st (some u) =
        (employees,
         { session := st.session, user := some ⟨u, none⟩, loading := st.loading,
           currentUserRole := JsVal.str "employee" })) ∧
    (∀ (faults : EnsureFaults) (insertErr : JsError), faults.insert = some insertErr →
      ((faults.lookup = none ∧
          ∀ d, employees.filter (fun r => decide (r.user_id = u.id)) ≠ [d]) ∨
        ∃ err, faults.lookup = some err ∧ err.code = some "PGRST116") →
      ensureEmployeeRecord faults today employees st (some u) =
        (employees,
         { session := st.session, user := some ⟨u, none⟩, loading := st.loading,
           currentUserRole := JsVal.str "employee" })) ∧
    (∀ insertErr : JsError,
      createEmployeeRecordForNewUser (some insertErr) today employees st (some u) =
        (employees,
         { session := st.session, user := some ⟨u, none⟩, loading := st.loading,
           currentUserRole := JsVal.str "employee" })) := by
  refine ⟨fun err insertError hcode => ?_, fun faults insertErr hins hnf => ?_, fun _ => rfl⟩
  · unfold ensureEmployeeRecord
    simp [hcode, roleFallback]
  · rw [ensureEmployeeRecord_not_found faults today employees st u hnf, hins]
    rfl

theorem ensureEmployeeRecord_failure_falls_back_witness :
    ensureEmployeeRecord ⟨some ⟨some "permission denied for table employees", some "42501"⟩, none⟩
      "2024-06-01" []
      { session := some ⟨⟨"u1", "jane.doe@example.com"⟩⟩, user := none, loading := true,
        currentUserRole := JsVal.str "hr_admin" }
      (some ⟨"u1", "jane.doe@example.com"⟩)
      = ([], { session := some ⟨⟨"u1", "jane.doe@example.com"⟩⟩,
               user := some ⟨⟨"u1", "jane.doe@example.com"⟩, none⟩, loading := true,
               currentUserRole := JsVal.str "employee" }) ∧
    ensureEmployeeRecord ⟨none, some ⟨some "duplicate key", some "23505"⟩⟩
      "2024-06-01" []
      { session := some ⟨⟨"u1", "jane.doe@example.com"⟩⟩, user := none, loading := true,
        currentUserRole := JsVal.str "hr_admin" }
      (some ⟨"u1", "jane.doe@example.com"⟩)
      = ([], { session := some ⟨⟨"u1", "jane.doe@example.com"⟩⟩,
               user := some ⟨⟨"u1", "jane.doe@example.com"⟩, none⟩, loading := true,
               currentUserRole := JsVal.str "employee" }) :=
  have h := ensureEmployeeRecord_failure_falls_back "2024-06-01" []
    { session := some ⟨⟨"u1", "jane.doe@example.com"⟩⟩, user := none, loading := true,
      currentUserRole := JsVal.str "hr_admin" } ⟨"u1", "jane.doe@example.com"⟩
  ⟨h.1 ⟨some "permission denied for table employees", some "42501"⟩ none (by decide),
   h.2.1 ⟨none, some ⟨some "duplicate key", some "23505"⟩⟩ ⟨some "duplicate key", some "23505"⟩
     rfl (Or.inl ⟨rfl, fun d hd => by simp at hd⟩)⟩

/-- Claim C16. For an identity with no `employees` record and remote calls
that succeed, the first `ensureEmployeeRecord` appends exactly one row for that
`user_id`, with role `employee`; every later `ensureEmployeeRecord` for the
identity, on whatever day and from whatever cells, appends none, so after any
number of them the table still holds exactly that one row for the identity. -/
theorem ensureEmployeeRecord_provisions_once [JsEngine] (today : String)
    (employees : List EmployeeRecord) (st : AuthState) (u : User)
    (hnone : employees.filter (fun r => decide (r.user_id = u.id)) = []) :
    (ensureEmployeeRecord EnsureFaults.none today employees st (some u)).1 =
      employees ++ [provisionedRecord u today] ∧
    (provisionedRecord u today).user_id = u.id ∧
    (provisionedRecord u today).role = JsVal.str "employee" ∧
    ∀ (later : List (String × AuthState)),
      later.foldl
        (fun table call => (ensureEmployeeRecord EnsureFaults.none call.1 table call.2 (some u)).1)
        (ensureEmployeeRecord EnsureFaults.none today employees st (some u)).1
        = employees ++ [provisionedRecord u today] ∧
      (later.foldl
        (fun table call => (ensureEmployeeRecord EnsureFaults.none call.1 table call.2 (some u)).1)
        (ensureEmployeeRecord EnsureFaults.none today employees st (some u)).1).filter
          (fun r => decide (r.user_id = u.id))
        = [provisionedRecord u today] := by
  have hfirst : (ensureEmployeeRecord EnsureFaults.none today employees st (some u)).1 =
      employees ++ [provisionedRecord u today] := by
    rw [ensureEmployeeRecord_not_found EnsureFaults.none today employees st u
      (Or.inl ⟨rfl, fun d hd => by rw [hnone] at hd; exact absurd hd (by simp)⟩)]
    rfl
  have hrows : (employees ++ [provisionedRecord u today]).filter
      (fun r => decide (r.user_id = u.id)) = [provisionedRecord u today] := by
    rw [List.filter_append, hnone]
    simp [provisionedRecord]
  refine ⟨hfirst, rfl, rfl, fun later => ?_⟩
  rw [hfirst]
  have hfix : later.foldl
      (fun table call => (ensureEmployeeRecord EnsureFaults.none call.1 table call.2 (some u)).1)
      (employees ++ [provisionedRecord u today]) = employees ++ [provisionedRecord u today] := by
    induction later with
    | nil => rfl
    | cons call rest ih =>
      rw [List.foldl_cons]
      have := ensureEmployeeRecord_found none call.1 _ call.2 u _ hrows
      rw [show EnsureFaults.none = ⟨none, none⟩ from rfl, this]
      exact ih
  exact ⟨hfix, by rw [hfix]; exact hrows⟩

theorem ensureEmployeeRecord_provisions_once_witness :
    (ensureEmployeeRecord EnsureFaults.none "2024-06-01" [] AuthState.initial
      (some ⟨"u1", "jane.doe@example.com"⟩)).1
      = [⟨"u1", "jane.doe@example.com", "Jane", "Doe", "2024-06-01", "Active",
          JsVal.str "employee"⟩] :=
  (ensureEmployeeRecord_provisions_once "2024-06-01" [] AuthState.initial
    ⟨"u1", "jane.doe@example.com"⟩ rfl).1

/-- Counterexample to claim C17 as stated: the backend holds a record whose
role is `manager`; after the first auth event `loading` is false and the role
cell is `manager`, which is not of the enumeration. -/
theorem authRun_role_outside_enumeration :
    (authRun
      ([⟨"u1", "sam@example.com", "Sam", "User", "2024-01-01", "Active", JsVal.str "manager"⟩],
       AuthState.initial)
      [AuthAction.authStateChange (some ⟨⟨"u1", "sam@example.com"⟩⟩) EnsureFaults.none
        "2024-06-01"]).2.loading = false ∧
    (authRun
      ([⟨"u1", "sam@example.com", "Sam", "User", "2024-01-01", "Active", JsVal.str "manager"⟩],
       AuthState.initial)
      [AuthAction.authStateChange (some ⟨⟨"u1", "sam@example.com"⟩⟩) EnsureFaults.none
        "2024-06-01"]).2.currentUserRole = JsVal.str "manager" ∧
    JsVal.str "manager" ∉ roleEnumeration := by
  decide

/-- Claim C17, amended. Provided every `employees` record the backend holds,
at the start and after every change made elsewhere, has a role of the
enumeration `employee`, `hr_admin`, `unknown` or no role (missing, `null` or
empty), the role cell is of the enumeration after every sequence of auth
events, initial checks, `signIn`, `signUp` and `signOut`, whatever the remote
calls return. -/
theorem authRun_role_enumerated [JsEngine] (employees : List EmployeeRecord) (actions : List AuthAction)
    (h0 : ∀ r ∈ employees,
      r.role ∈ [JsVal.undefined, JsVal.null, JsVal.str ""] ++ roleEnumeration)
    (hw : ∀ t, AuthAction.backendWrite t ∈ actions →
      ∀ r ∈ t, r.role ∈ [JsVal.undefined, JsVal.null, JsVal.str ""] ++ roleEnumeration) :
    (authRun (employees, AuthState.initial) actions).2.currentUserRole ∈ roleEnumeration :=
  (authRun_enumerated actions (employees, AuthState.initial)
    ⟨h0, employee_mem_roleEnumeration⟩ hw).2

theorem authRun_role_enumerated_witness :
    (authRun
      ([⟨"u1", "sam@example.com", "Sam", "User", "2024-01-01", "Active", JsVal.str "hr_admin"⟩],
       AuthState.initial)
      [AuthAction.authStateChange (some ⟨⟨"u1", "sam@example.com"⟩⟩) EnsureFaults.none
        "2024-06-01"]).2.currentUserRole ∈ roleEnumeration :=
  authRun_role_enumerated
    [⟨"u1", "sam@example.com", "Sam", "User", "2024-01-01", "Active", JsVal.str "hr_admin"⟩]
    [AuthAction.authStateChange (some ⟨⟨"u1", "sam@example.com"⟩⟩) EnsureFaults.none "2024-06-01"]
    (by decide) (fun t ht => by simp at ht)

/-- Counterexample to claim C18 as stated: `signOut`, and a `signIn` that the
provider refuses, run from the first-render cells end with `loading` still true. -/
theorem authStep_signOut_leaves_loading :
    (authStep ([], AuthState.initial) (AuthAction.signOut none)).2.loading = true ∧
    (authStep ([], AuthState.initial)
      (AuthAction.signIn (some ⟨some "Invalid login credentials", none⟩)
        ⟨⟨"u1", "sam@example.com"⟩⟩ ⟨"u1", "sam@example.com"⟩ EnsureFaults.none
        "2024-06-01")).2.loading = true := by
  decide

/-- Claim C18, amended. Handling a backend auth event and the initial session
check end with `loading = false`, for every prior state and every outcome of
the remote calls; `signIn`, `signUp` and `signOut` leave `loading` as it was;
so no transition sets it, and once it is false it is false after every
sequence of transitions. -/
theorem authStep_loading_cleared_or_kept [JsEngine] (world : List EmployeeRecord × AuthState) :
    (∀ currentSession faults today,
      (authStep world (AuthAction.authStateChange currentSession faults today)).2.loading
        = false) ∧
    (∀ error initialSession faults today,
      (authStep world
        (AuthAction.getInitialSession error initialSession faults today)).2.loading = false) ∧
    (∀ error session user faults today,
      (authStep world (AuthAction.signIn error session user faults today)).2.loading
        = world.2.loading) ∧
    (∀ error user insertError today,
      (authStep world (AuthAction.signUp error user insertError today)).2.loading
        = world.2.loading) ∧
    (∀ error, (authStep world (AuthAction.signOut error)).2.loading = world.2.loading) ∧
    (∀ actions : List AuthAction, world.2.loading = false →
      (authRun world actions).2.loading = false) := by
  obtain ⟨employees, st⟩ := world
  refine ⟨fun _ _ _ => rfl, fun _ _ _ _ => rfl, ?_, ?_, ?_, fun actions h => ?_⟩
  · intro error session user faults today
    cases error with
    | some err => rfl
    | none =>
      exact (ensureEmployeeRecord_frame faults today employees
        { st with session := some session } (some user)).1
  · intro error user insertError today
    cases error with
    | some err => rfl
    | none => exact (createEmployeeRecordForNewUser_frame insertError today employees st user).1
  · intro error
    cases error <;> rfl
  · exact authRun_loading actions (employees, st) h

theorem authStep_loading_cleared_or_kept_witness :
    (authStep ([], AuthState.initial)
      (AuthAction.getInitialSession (some ⟨some "Failed to fetch", none⟩) none
        EnsureFaults.none "2024-06-01")).2.loading = false ∧
    (authRun ([], { AuthState.initial with loading := false })
      [AuthAction.signOut none,
       AuthAction.signUp none (some ⟨"u2", "kim@example.com"⟩) none "2024-06-01"]).2.loading
      = false :=
  have h := authStep_loading_cleared_or_kept ([], AuthState.initial)
  have h2 := authStep_loading_cleared_or_kept ([], { AuthState.initial with loading := false })
  ⟨h.2.1 _ _ _ _, h2.2.2.2.2.2 _ rfl⟩

/-! ## Route table -/

/-- Claim C19. In `App.js` with `loading = false`, a location that matches `/`
shows the login page when there is no session, redirects to
`/hr-admin-dashboard` when `session.role` is `hr_admin`, and redirects to
`/employee-dashboard` for every other role; a location that matches none of
the four declared paths redirects to `/`. -/
theorem appContent_root_and_catch_all (matchPath : String → String → Bool)
    (pathname : String) :
    (matchPath "/" pathname = true →
      AppContent matchPath false none pathname = some View.authPage ∧
      (∀ s : Session, s.role = JsVal.str "hr_admin" →
        AppContent matchPath false (some s) pathname
          = some (View.navigate "/hr-admin-dashboard")) ∧
      (∀ s : Session, s.role ≠ JsVal.str "hr_admin" →
        AppContent matchPath false (some s) pathname
          = some (View.navigate "/employee-dashboard"))) ∧
    (matchPath "/" pathname = false → matchPath "/employee-dashboard" pathname = false →
      matchPath "/hr-admin-dashboard" pathname = false →
      matchPath "/unauthorized" pathname = false →
      ∀ session : Option Session,
        AppContent matchPath false session pathname = some (View.navigate "/")) := by
  refine ⟨fun h => ⟨?_, fun s hs => ?_, fun s hs => ?_⟩, fun h1 h2 h3 h4 session => ?_⟩
  · simp [AppContent, Routes, h]
  · simp [AppContent, Routes, h, hs]
  · simp [AppContent, Routes, h, hs]
  · simp [AppContent, Routes, h1, h2, h3, h4]

theorem appContent_root_and_catch_all_witness :
    AppContent exactPath false (some ⟨⟨"u1", "sam@example.com"⟩, JsVal.str "unknown"⟩) "/"
      = some (View.navigate "/employee-dashboard") ∧
    AppContent exactPath false none "/training" = some (View.navigate "/") :=
  ⟨((appContent_root_and_catch_all exactPath "/").1 (by decide)).2.2 _ (by decide),
   (appContent_root_and_catch_all exactPath "/training").2 (by decide) (by decide) (by decide)
     (by decide) none⟩

/-! ## Lemmas: splitting an email address -/

/-- A piece free of the separator, followed by the separator, is split off. -/
theorem splitOnChar_append_sep (sep : Char) (piece rest : List Char)
    (h : ∀ c ∈ piece, c ≠ sep) :
    splitOnChar sep (piece ++ sep :: rest) = piece :: splitOnChar sep rest := by
  induction piece with
  | nil => simp [splitOnChar]
  | cons c cs ih =>
    have hc : c ≠ sep := h c (List.mem_cons_self _ _)
    have ih' := ih (fun d hd => h d (List.mem_cons_of_mem _ hd))
    rw [List.cons_append, splitOnChar, if_neg hc, ih']

/-- A piece free of the separator is the only piece of its split. -/
theorem splitOnChar_of_no_sep (sep : Char) (piece : List Char) (h : ∀ c ∈ piece, c ≠ sep) :
    splitOnChar sep piece = [piece] := by
  induction piece with
  | nil => rfl
  | cons c cs ih =>
    have hc : c ≠ sep := h c (List.mem_cons_self _ _)
    have ih' := ih (fun d hd => h d (List.mem_cons_of_mem _ hd))
    simp only [splitOnChar, hc, if_false, ih']

/-- The split is never empty. -/
theorem splitOnChar_ne_nil (sep : Char) (l : List Char) : splitOnChar sep l ≠ [] := by
  cases l with
  | nil => simp [splitOnChar]
  | cons c cs =>
    simp only [splitOnChar]
    split_ifs
    · simp
    · split <;> simp

/-- The first piece of a split at `@` of a text free of `@`, followed by
nothing or by `@` and anything, is that text. -/
theorem splitOnChar_at_head (localPart stop : List Char) (h : ∀ c ∈ localPart, c ≠ '@')
    (hstop : stop = [] ∨ ∃ d, stop = '@' :: d) :
    (splitOnChar '@' (localPart ++ stop)).headD [] = localPart := by
  rcases hstop with rfl | ⟨d, rfl⟩
  · rw [List.append_nil, splitOnChar_of_no_sep '@' localPart h]; rfl
  · rw [splitOnChar_append_sep '@' localPart d h]; rfl

/-- The first two pieces of a split at `.` of two pieces free of `.`, joined by
`.` and followed by nothing or by `.` and anything. -/
theorem splitOnChar_dot_two (first second more : List Char)
    (h1 : ∀ c ∈ first, c ≠ '.') (h2 : ∀ c ∈ second, c ≠ '.')
    (hmore : more = [] ∨ ∃ d, more = '.' :: d) :
    (splitOnChar '.' (first ++ '.' :: (second ++ more))).head? = some first ∧
    (splitOnChar '.' (first ++ '.' :: (second ++ more))).tail.head? = some second := by
  rw [splitOnChar_append_sep '.' first _ h1]
  refine ⟨rfl, ?_⟩
  rcases hmore with rfl | ⟨d, rfl⟩
  · rw [List.append_nil, splitOnChar_of_no_sep '.' second h2]; rfl
  · rw [splitOnChar_append_sep '.' second d h2]; rfl

/-- The first piece of a split is the text up to the first separator. -/
theorem splitOnChar_head_takeWhile (sep : Char) (l : List Char) :
    (splitOnChar sep l).headD [] = l.takeWhile (fun c => decide (c ≠ sep)) := by
  induction l with
  | nil => rfl
  | cons c cs ih =>
    by_cases hc : c = sep
    · simp [splitOnChar, hc]
    · rw [splitOnChar, if_neg hc, List.takeWhile_cons_of_pos (by simpa using hc), ← ih]
      cases hs : splitOnChar sep cs with
      | nil => exact absurd hs (splitOnChar_ne_nil sep cs)
      | cons piece pieces => rfl

/-- Taking a text up to the first separator passes over a piece free of it. -/
theorem takeWhile_ne_append (sep : Char) (piece rest : List Char) (h : ∀ c ∈ piece, c ≠ sep) :
    (piece ++ rest).takeWhile (fun c => decide (c ≠ sep))
      = piece ++ rest.takeWhile (fun c => decide (c ≠ sep)) := by
  induction piece with
  | nil => rfl
  | cons c cs ih =>
    have hc : c ≠ sep := h c (List.mem_cons_self _ _)
    rw [List.cons_append, List.takeWhile_cons_of_pos (by simpa using hc),
      ih (fun d hd => h d (List.mem_cons_of_mem _ hd)), List.cons_append]

/-! ## Provisioned name -/

/-- The name derived from an email of one segment: `first`, or `first@...`. -/
theorem derivedName_one_segment [JsEngine] (first domain : List Char)
    (hfirst : ∀ c ∈ first, c ≠ '.' ∧ c ≠ '@') (hdomain : domain = [] ∨ ∃ d, domain = '@' :: d) :
    derivedName (String.mk (first ++ domain)) = (capitalizeOr (some first) "New", "User") := by
  have hdot : ∀ c ∈ first, c ≠ '.' := fun c hc => (hfirst c hc).1
  have hat : ∀ c ∈ first, c ≠ '@' := fun c hc => (hfirst c hc).2
  simp only [derivedName]
  rw [splitOnChar_at_head first domain hat hdomain, splitOnChar_of_no_sep '.' first hdot]
  rfl

/-- The name derived from an email of two segments or more: `first.second`
followed by nothing, by `@...` or by `.more...`. -/
theorem derivedName_two_segments [JsEngine] (first second rest : List Char)
    (hfirst : ∀ c ∈ first, c ≠ '.' ∧ c ≠ '@') (hsecond : ∀ c ∈ second, c ≠ '.' ∧ c ≠ '@')
    (hrest : rest = [] ∨ ∃ c d, rest = c :: d ∧ (c = '.' ∨ c = '@')) :
    derivedName (String.mk (first ++ '.' :: (second ++ rest)))
      = (capitalizeOr (some first) "New", capitalizeOr (some second) "User") := by
  have hdot : ∀ c ∈ first, c ≠ '.' := fun c hc => (hfirst c hc).1
  have hat : ∀ c ∈ first, c ≠ '@' := fun c hc => (hfirst c hc).2
  have hdot2 : ∀ c ∈ second, c ≠ '.' := fun c hc => (hsecond c hc).1
  have hat2 : ∀ c ∈ second, c ≠ '@' := fun c hc => (hsecond c hc).2
  simp only [derivedName]
  rcases hrest with rfl | ⟨c, d, rfl, hc | hc⟩
  · have hlocal : ∀ c ∈ first ++ '.' :: (second ++ []), c ≠ '@' := by
      intro c hc
      simp only [List.append_nil, List.mem_append, List.mem_cons] at hc
      rcases hc with hc | rfl | hc
      · exact hat c hc
      · decide
      · exact hat2 c hc
    have h := splitOnChar_at_head (first ++ '.' :: (second ++ [])) [] hlocal (Or.inl rfl)
    rw [List.append_nil] at h
    rw [h]
    have h2 := splitOnChar_dot_two first second [] hdot hdot2 (Or.inl rfl)
    rw [h2.1, h2.2]
  · subst hc
    have e : (first ++ '.' :: (second ++ '.' :: d)).takeWhile (fun c => decide (c ≠ '@'))
        = first ++ '.' :: (second ++ '.' :: d.takeWhile (fun c => decide (c ≠ '@'))) := by
      rw [takeWhile_ne_append '@' first _ hat,
        List.takeWhile_cons_of_pos (by decide), takeWhile_ne_append '@' second _ hat2,
        List.takeWhile_cons_of_pos (by decide)]
    rw [splitOnChar_head_takeWhile, e]
    have h2 := splitOnChar_dot_two first second
      ('.' :: d.takeWhile (fun c => decide (c ≠ '@'))) hdot hdot2 (Or.inr ⟨_, rfl⟩)
    rw [h2.1, h2.2]
  · subst hc
    have hlocal : ∀ c ∈ first ++ '.' :: second, c ≠ '@' := by
      intro c hc
      simp only [List.mem_append, List.mem_cons] at hc
      rcases hc with hc | rfl | hc
      · exact hat c hc
      · decide
      · exact hat2 c hc
    have h := splitOnChar_at_head (first ++ '.' :: second) ('@' :: d) hlocal (Or.inr ⟨d, rfl⟩)
    have e : first ++ '.' :: (second ++ '@' :: d) = (first ++ '.' :: second) ++ '@' :: d := by
      simp
    rw [e, h]
    have h2 := splitOnChar_dot_two first second [] hdot hdot2 (Or.inl rfl)
    rw [List.append_nil] at h2
    rw [h2.1, h2.2]

/-- The capitalised segment by cases: the fallback for the empty segment; the
engine's upper-casing of the first character, then the rest, for a first
character of the Basic Multilingual Plane; the segment itself otherwise. -/
theorem capitalizeOr_cases [JsEngine] (segment : List Char) (fallback : String) :
    (segment = [] → capitalizeOr (some segment) fallback = fallback) ∧
    (∀ (c : Char) (cs : List Char), segment = c :: cs → c.toNat < 65536 →
      capitalizeOr (some segment) fallback = String.mk (JsEngine.toUpperCase c ++ cs)) ∧
    (∀ (c : Char) (cs : List Char), segment = c :: cs → 65536 ≤ c.toNat →
      capitalizeOr (some segment) fallback = String.mk segment) := by
  refine ⟨fun h => ?_, fun c cs h hc => ?_, fun c cs h hc => ?_⟩
  · subst h; rfl
  · subst h; simp only [capitalizeOr, charAtZeroUpper, if_pos hc]
  · subst h
    simp only [capitalizeOr, charAtZeroUpper, if_neg (Nat.not_lt.mpr hc), List.singleton_append]

/-- Claim C21. The provisioned name comes from the text of the email before
its first `@`, split at `.`, for every engine. With `first` and `second` free
of `.` and `@`: an email `first` or `first@...` gives the last name `User`; an
email `first.second`, `first.second@...` or `first.second.more...` gives the
last name from `second`, whatever follows; both give the first name from
`first`. The name from a segment is `New` (first) or `User` (last) when the
segment is empty; it is the engine's upper-casing of the first character
followed by the rest as it is when that character is one UTF-16 code unit;
and it is the segment as it is when its first character is a surrogate pair,
of which `charAt(0)` is one half. A successful insert appends one record,
which carries these names, role `employee` and status `Active`. -/
theorem createEmployeeRecordForNewUser_derives_name [JsEngine] (first : List Char)
    (hfirst : ∀ c ∈ first, c ≠ '.' ∧ c ≠ '@') :
    (∀ domain : List Char, (domain = [] ∨ ∃ d, domain = '@' :: d) →
      (first = [] → (derivedName (String.mk (first ++ domain))).1 = "New") ∧
      (∀ (c : Char) (cs : List Char), first = c :: cs → c.toNat < 65536 →
        (derivedName (String.mk (first ++ domain))).1
          = String.mk (JsEngine.toUpperCase c ++ cs)) ∧
      (∀ (c : Char) (cs : List Char), first = c :: cs → 65536 ≤ c.toNat →
        (derivedName (String.mk (first ++ domain))).1 = String.mk first) ∧
      (derivedName (String.mk (first ++ domain))).2 = "User") ∧
    (∀ second rest : List Char, (∀ c ∈ second, c ≠ '.' ∧ c ≠ '@') →
      (rest = [] ∨ ∃ c d, rest = c :: d ∧ (c = '.' ∨ c = '@')) →
      (first = [] → (derivedName (String.mk (first ++ '.' :: (second ++ rest)))).1 = "New") ∧
      (∀ (c : Char) (cs : List Char), first = c :: cs → c.toNat < 65536 →
        (derivedName (String.mk (first ++ '.' :: (second ++ rest)))).1
          = String.mk (JsEngine.toUpperCase c ++ cs)) ∧
      (∀ (c : Char) (cs : List Char), first = c :: cs → 65536 ≤ c.toNat →
        (derivedName (String.mk (first ++ '.' :: (second ++ rest)))).1 = String.mk first) ∧
      (second = [] → (derivedName (String.mk (first ++ '.' :: (second ++ rest)))).2 = "User") ∧
      (∀ (c : Char) (cs : List Char), second = c :: cs → c.toNat < 65536 →
        (derivedName (String.mk (first ++ '.' :: (second ++ rest)))).2
          = String.mk (JsEngine.toUpperCase c ++ cs)) ∧
      (∀ (c : Char) (cs : List Char), second = c :: cs → 65536 ≤ c.toNat →
        (derivedName (String.mk (first ++ '.' :: (second ++ rest)))).2 = String.mk second)) ∧
    (∀ (u : User) (today : String) (employees : List EmployeeRecord) (st : AuthState),
      ∃ row : EmployeeRecord,
        (createEmployeeRecordForNewUser none today employees st (some u)).1
          = employees ++ [row] ∧
        row.user_id = u.id ∧ row.email = u.email ∧
        row.firstName = (derivedName u.email).1 ∧ row.lastName = (derivedName u.email).2 ∧
        row.role = JsVal.str "employee" ∧ row.status = "Active") := by
  refine ⟨fun domain hdomain => ?_, fun second rest hsecond hrest => ?_,
    fun u today employees st => ⟨provisionedRecord u today, rfl, rfl, rfl, rfl, rfl, rfl, rfl⟩⟩
  · rw [derivedName_one_segment first domain hfirst hdomain]
    have h1 := capitalizeOr_cases first "New"
    exact ⟨h1.1, h1.2.1, h1.2.2, rfl⟩
  · rw [derivedName_two_segments first second rest hfirst hsecond hrest]
    have h1 := capitalizeOr_cases first "New"
    have h2 := capitalizeOr_cases second "User"
    exact ⟨h1.1, h1.2.1, h1.2.2, h2.1, h2.2.1, h2.2.2⟩

theorem createEmployeeRecordForNewUser_derives_name_witness :
    (derivedName "jane.doe@example.com").1 = "Jane" ∧
    (derivedName "jane.doe@example.com").2 = "Doe" ∧
    (derivedName "jane@example.com").2 = "User" ∧
    (derivedName ".doe@example.com").1 = "New" :=
  have h := createEmployeeRecordForNewUser_derives_name ['j', 'a', 'n', 'e'] (by decide)
  have h2 := h.2.1 ['d', 'o', 'e'] "@example.com".data (by decide)
    (Or.inr ⟨'@', "example.com".data, rfl, Or.inr rfl⟩)
  ⟨h2.2.1 'j' "ane".data rfl (by decide), h2.2.2.2.2.1 'd' "oe".data rfl (by decide),
   (h.1 "@example.com".data (Or.inr ⟨"example.com".data, rfl⟩)).2.2.2,
   ((createEmployeeRecordForNewUser_derives_name [] (by decide)).2.1 ['d', 'o', 'e']
      "@example.com".data (by decide) (Or.inr ⟨'@', "example.com".data, rfl, Or.inr rfl⟩)).1 rfl⟩

/-! ## Route table of `App.jsx` -/

/-- What `<Routes>` shows is the element of one of its routes. -/
theorem routes_element_mem (matchPath : String → String → Bool) (routes : List RouteEntry)
    (pathname : String) (v : View) (h : Routes matchPath routes pathname = some v) :
    ∃ r ∈ routes, r.element = v := by
  unfold Routes at h
  split at h
  · next r hr =>
    exact ⟨r, List.mem_of_find?_eq_some hr, Option.some.inj h⟩
  · cases hc : routes.find? (fun r => decide (r.path = "*")) with
    | none => rw [hc] at h; exact absurd h (by simp)
    | some r =>
      rw [hc] at h
      exact ⟨r, List.mem_of_find?_eq_some hc, Option.some.inj h⟩

/-- Claim C22, evaluated where the code departs from it: `PrivateRoute` of
`App.jsx` with `loading = false` and a session of role `hr_admin`. The guard of
the employee dashboard route lists `employee` and `hrAdmin`, the guard of the
HR dashboard route lists `hrAdmin`: both return the redirect to
`/unauthorized`. For this session the route table therefore holds no dashboard
at all, while its `/` route redirects to `./HrAdminDashboard.jsx`; whatever
the router's path test and the location, `AppContent` shows the session
neither dashboard. An `employee` session passes the guard of the employee
dashboard route, and the guards of `App.js`, which list `hr_admin`, pass the
`hr_admin` session. -/
theorem appJsx_hr_admin_redirected_to_unauthorized :
    PrivateRoute false (some ⟨⟨"u1", "pat@example.com"⟩, JsVal.str "hr_admin"⟩)
      (some [JsVal.str "employee", JsVal.str "hrAdmin"]) = Element.navigate "/unauthorized" ∧
    PrivateRoute false (some ⟨⟨"u1", "pat@example.com"⟩, JsVal.str "hr_admin"⟩)
      (some [JsVal.str "hrAdmin"]) = Element.navigate "/unauthorized" ∧
    AppJsx.routeTable false (some ⟨⟨"u1", "pat@example.com"⟩, JsVal.str "hr_admin"⟩)
      = [⟨"/", View.navigate "./HrAdminDashboard.jsx"⟩,
         ⟨"./EmployeeDashboard.jsx", View.navigate "/unauthorized"⟩,
         ⟨"./HrAdminDashboard.jsx", View.navigate "/unauthorized"⟩,
         ⟨"/unauthorized", View.unauthorizedPage⟩,
         ⟨"*", View.navigate "/"⟩] ∧
    (∀ (matchPath : String → String → Bool) (pathname : String),
      AppJsx.AppContent matchPath false
          (some ⟨⟨"u1", "pat@example.com"⟩, JsVal.str "hr_admin"⟩) pathname
        ≠ some View.hrAdminDashboard ∧
      AppJsx.AppContent matchPath false
          (some ⟨⟨"u1", "pat@example.com"⟩, JsVal.str "hr_admin"⟩) pathname
        ≠ some View.employeeDashboard) ∧
    PrivateRoute false (some ⟨⟨"u2", "sam@example.com"⟩, JsVal.str "employee"⟩)
      (some [JsVal.str "employee", JsVal.str "hrAdmin"]) = Element.children ∧
    PrivateRoute false (some ⟨⟨"u1", "pat@example.com"⟩, JsVal.str "hr_admin"⟩)
      (some [JsVal.str "employee", JsVal.str "hr_admin"]) = Element.children ∧
    PrivateRoute false (some ⟨⟨"u1", "pat@example.com"⟩, JsVal.str "hr_admin"⟩)
      (some [JsVal.str "hr_admin"]) = Element.children := by
  refine ⟨by decide, by decide, by decide, fun matchPath pathname => ⟨fun h => ?_, fun h => ?_⟩,
    by decide, by decide, by decide⟩
  · simp only [AppJsx.AppContent, Bool.false_eq_true, if_false] at h
    obtain ⟨r, hr, he⟩ := routes_element_mem _ _ _ _ h
    revert he
    revert r
    decide
  · simp only [AppJsx.AppContent, Bool.false_eq_true, if_false] at h
    obtain ⟨r, hr, he⟩ := routes_element_mem _ _ _ _ h
    revert he
    revert r
    decide

end Hrms
